import Mathlib

set_option linter.unusedSectionVars false

/-!
# Verification of the `nih_plug_spectrum_analyser` analysis core

Shallow embedding of the spectrum/meter analysis pipeline
(`src/audio/spectrum.rs`, `src/audio/window_functions.rs`, `src/audio/meter.rs`).

`f32` values are modelled as elements of an arbitrary linear ordered field `α`
(instantiated at `ℚ` for executable witnesses and at `ℝ` for counterexamples).
Transcendental library functions (`cosf`, `exp`, `log2`, `log10`, `sqrt`) are
passed explicitly as function parameters, so every definition stays computable;
theorems that need their analytic properties either take those properties as
hypotheses or instantiate the parameters with `Real.cos`, `Real.exp`,
`Real.logb` and `Real.sqrt`.

Fixed-length `f32` arrays and `Vec<f32>` buffers of a known length are modelled
as functions `ℕ → α` together with the relevant length (`SPECTRUM_BINS`,
`SPECTRUM_WINDOW_SIZE`, …); window-coefficient vectors built at initialization
are also modelled as `List α` where a claim speaks about the produced array.
-/

namespace NPSA

/-! ## Constants from `src/audio/spectrum.rs` -/

/-- Rust `SPECTRUM_WINDOW_SIZE` (= 2048). -/
def SPECTRUM_WINDOW_SIZE : ℕ := 2048

/-- Rust `SPECTRUM_BINS = SPECTRUM_WINDOW_SIZE / 2 + 1`. -/
def SPECTRUM_BINS : ℕ := SPECTRUM_WINDOW_SIZE / 2 + 1

section FieldConstants

variable (α : Type*) [LinearOrderedField α]

/-- Rust `SPECTRUM_TILT_DB_PER_OCT: f32 = 4.5`. -/
def SPECTRUM_TILT_DB_PER_OCT : α := 45 / 10

/-- Rust `SPECTRUM_FLOOR_DB: f32 = -120.0`. -/
def SPECTRUM_FLOOR_DB : α := -120

/-- Rust `FFT_OVERLAP_FACTOR: f32 = 0.5`. -/
def FFT_OVERLAP_FACTOR : α := 1 / 2

/-- Rust `MIN_AMPLITUDE_THRESHOLD: f32 = 1e-8`. -/
def MIN_AMPLITUDE_THRESHOLD : α := 1 / 100000000

/-- Rust `DB_CONVERSION_FACTOR: f32 = 20.0`. -/
def DB_CONVERSION_FACTOR : α := 20

/-- Rust `TILT_REFERENCE_FREQ_HZ: f32 = 1000.0`. -/
def TILT_REFERENCE_FREQ_HZ : α := 1000

/-- Rust `MIN_FREQ_THRESHOLD: f32 = 0.001`. -/
def MIN_FREQ_THRESHOLD : α := 1 / 1000

/-- Rust `SMOOTHING_HIGH_FREQ_HZ: f32 = 5000.0`. -/
def SMOOTHING_HIGH_FREQ_HZ : α := 5000

/-- Rust `SMOOTHING_MID_HIGH_FREQ_HZ: f32 = 2000.0`. -/
def SMOOTHING_MID_HIGH_FREQ_HZ : α := 2000

/-- Rust `SMOOTHING_MID_FREQ_HZ: f32 = 800.0`. -/
def SMOOTHING_MID_FREQ_HZ : α := 800

/-- Rust `GAUSSIAN_SIGMA_STRONG: f32 = 1.0`. -/
def GAUSSIAN_SIGMA_STRONG : α := 1

/-- Rust `GAUSSIAN_SIGMA_MODERATE: f32 = 2.0`. -/
def GAUSSIAN_SIGMA_MODERATE : α := 2

/-- Rust `SMOOTH_WEIGHT_OUTER: f32 = 0.1`. -/
def SMOOTH_WEIGHT_OUTER : α := 1 / 10

/-- Rust `SMOOTH_WEIGHT_INNER: f32 = 0.2`. -/
def SMOOTH_WEIGHT_INNER : α := 2 / 10

/-- Rust `SMOOTH_WEIGHT_CENTER: f32 = 0.4`. -/
def SMOOTH_WEIGHT_CENTER : α := 4 / 10

end FieldConstants

/-- Rust `HIGH_FREQ_KERNEL_SIZE: usize = 9`. -/
def HIGH_FREQ_KERNEL_SIZE : ℕ := 9

/-- Rust `MID_HIGH_FREQ_KERNEL_SIZE: usize = 7`. -/
def MID_HIGH_FREQ_KERNEL_SIZE : ℕ := 7

variable {α : Type*} [LinearOrderedField α]

/-! ## Window functions (`src/audio/window_functions.rs`) -/

/-- Rust `WindowType` enum. -/
inductive WindowType : Type
  | rectangular
  | hann
  | hamming
  | blackman
  deriving DecidableEq, Repr

/-- One coefficient of `generate_hann_window`: the body of the `map` closure,
`0.5 * (1.0 - cosf(2.0 * PI * position))` with `position = i / N`. -/
def hannCoeff (cosf : α → α) (pi : α) (windowSize : ℕ) (i : ℕ) : α :=
  1 / 2 * (1 - cosf (2 * pi * ((i : α) / (windowSize : α))))

/-- One coefficient of `generate_hamming_window`:
`0.54 - 0.46 * cosf(2.0 * PI * position)`. -/
def hammingCoeff (cosf : α → α) (pi : α) (windowSize : ℕ) (i : ℕ) : α :=
  54 / 100 - 46 / 100 * cosf (2 * pi * ((i : α) / (windowSize : α)))

/-- One coefficient of `generate_blackman_window`:
`0.42 - 0.5 * cosf(2.0 * PI * position) + 0.08 * cosf(4.0 * PI * position)`. -/
def blackmanCoeff (cosf : α → α) (pi : α) (windowSize : ℕ) (i : ℕ) : α :=
  42 / 100 - 1 / 2 * cosf (2 * pi * ((i : α) / (windowSize : α)))
    + 8 / 100 * cosf (4 * pi * ((i : α) / (windowSize : α)))

/-- Rust `generate_hann_window(window_size)`. -/
def generate_hann_window (cosf : α → α) (pi : α) (windowSize : ℕ) : List α :=
  (List.range windowSize).map (hannCoeff cosf pi windowSize)

/-- Rust `generate_hamming_window(window_size)`. -/
def generate_hamming_window (cosf : α → α) (pi : α) (windowSize : ℕ) : List α :=
  (List.range windowSize).map (hammingCoeff cosf pi windowSize)

/-- Rust `generate_blackman_window(window_size)`. -/
def generate_blackman_window (cosf : α → α) (pi : α) (windowSize : ℕ) : List α :=
  (List.range windowSize).map (blackmanCoeff cosf pi windowSize)

/-- Rust `WindowType::generate(self, window_size)`. -/
def WindowType.generate (wt : WindowType) (cosf : α → α) (pi : α)
    (windowSize : ℕ) : List α :=
  match wt with
  | .rectangular => List.replicate windowSize 1
  | .hann => generate_hann_window cosf pi windowSize
  | .hamming => generate_hamming_window cosf pi windowSize
  | .blackman => generate_blackman_window cosf pi windowSize

/-- Rust `WindowType::coherent_gain(self, coefficients)`:
`coefficients.iter().sum::<f32>() / coefficients.len() as f32`. -/
def WindowType.coherent_gain (coefficients : List α) : α :=
  coefficients.sum / (coefficients.length : α)

/-- Pointwise (function-valued) view of a window's coefficients, used by the
pipeline model where the Rust code indexes the pre-computed coefficient `Vec`.
Agrees with `WindowType.generate` on indices `< windowSize`. -/
def WindowType.coeffFn (wt : WindowType) (cosf : α → α) (pi : α)
    (windowSize : ℕ) : ℕ → α :=
  match wt with
  | .rectangular => fun _ => 1
  | .hann => hannCoeff cosf pi windowSize
  | .hamming => hammingCoeff cosf pi windowSize
  | .blackman => blackmanCoeff cosf pi windowSize

/-- Rust `AdaptiveWindowStrategy` struct. -/
structure AdaptiveWindowStrategy (α : Type*) where
  lowFreqWindow : WindowType
  midFreqWindow : WindowType
  highFreqWindow : WindowType
  lowMidCrossfade : α × α
  midHighCrossfade : α × α

/-- Rust `AdaptiveWindowStrategy::default()`. -/
def AdaptiveWindowStrategy.default : AdaptiveWindowStrategy α where
  lowFreqWindow := .hann
  midFreqWindow := .hann
  highFreqWindow := .blackman
  lowMidCrossfade := (480, 520)
  midHighCrossfade := (8000, 9000)

/-- Rust `WindowData` struct (coefficient vector viewed pointwise, plus gain). -/
structure WindowData (α : Type*) where
  coefficients : ℕ → α
  coherentGain : α

/-- Rust `AdaptiveWindows` struct. -/
structure AdaptiveWindows (α : Type*) where
  lowFreq : WindowData α
  midFreq : WindowData α
  highFreq : WindowData α

/-- Rust `AdaptiveWindowStrategy::blend_frequency_spectrums` (bin-indexed view:
the Rust loop pushes one value per `bin_idx`; this is that value). -/
def blend_frequency_spectrums (s : AdaptiveWindowStrategy α)
    (lowSpectrum midSpectrum highSpectrum : ℕ → α)
    (sampleRate : α) (windowSize : ℕ) : ℕ → α := fun binIdx =>
  let freqHz := ((binIdx : α) * sampleRate) / (windowSize : α)
  if freqHz < s.lowMidCrossfade.1 then
    lowSpectrum binIdx
  else if freqHz < s.lowMidCrossfade.2 then
    let factor := (freqHz - s.lowMidCrossfade.1) /
      (s.lowMidCrossfade.2 - s.lowMidCrossfade.1)
    lowSpectrum binIdx * (1 - factor) + midSpectrum binIdx * factor
  else if freqHz < s.midHighCrossfade.1 then
    midSpectrum binIdx
  else if freqHz < s.midHighCrossfade.2 then
    let factor := (freqHz - s.midHighCrossfade.1) /
      (s.midHighCrossfade.2 - s.midHighCrossfade.1)
    midSpectrum binIdx * (1 - factor) + highSpectrum binIdx * factor
  else
    highSpectrum binIdx

/-! ## Magnitude spectrum (`src/audio/spectrum.rs`) -/

/-- Rust `Complex32::norm()`: `sqrt(re * re + im * im)` (complex bins are modelled
as pairs `(re, im)`, the square root as an explicit function parameter). -/
def complexNorm (sqrtf : α → α) (c : α × α) : α :=
  sqrtf (c.1 * c.1 + c.2 * c.2)

/-- Rust `apply_tilt_compensation(magnitude_db, freq_hz, tilt_db_per_oct)`. -/
def apply_tilt_compensation (log2f : α → α)
    (magnitudeDb freqHz tiltDbPerOct : α) : α :=
  if freqHz < MIN_FREQ_THRESHOLD α then
    magnitudeDb
  else
    magnitudeDb + tiltDbPerOct * log2f (freqHz / TILT_REFERENCE_FREQ_HZ α)

/-- The per-bin body of the `map` closure in `compute_magnitude_spectrum`. -/
def magnitudeDbBin (sqrtf log10f log2f : α → α) (windowSize : ℕ)
    (windowCoherentGain sampleRate : α) (binIdx : ℕ) (complexBin : α × α) : α :=
  let magnitude := complexNorm sqrtf complexBin
  let scaling : α := if binIdx = 0 then 1 / (windowSize : α) else 2 / (windowSize : α)
  let amplitude := magnitude * scaling / windowCoherentGain
  let dbValue : α :=
    if amplitude > MIN_AMPLITUDE_THRESHOLD α then
      DB_CONVERSION_FACTOR α * log10f amplitude
    else
      SPECTRUM_FLOOR_DB α
  let freqHz := ((binIdx : α) * sampleRate) / (windowSize : α)
  let tiltedDb := apply_tilt_compensation log2f dbValue freqHz (SPECTRUM_TILT_DB_PER_OCT α)
  max tiltedDb (SPECTRUM_FLOOR_DB α)

/-- Rust `compute_magnitude_spectrum(frequency_bins, window_size,
window_coherent_gain, sample_rate)` (bin-indexed view of the produced `Vec`). -/
def compute_magnitude_spectrum (sqrtf log10f log2f : α → α)
    (frequencyBins : ℕ → α × α) (windowSize : ℕ)
    (windowCoherentGain sampleRate : α) : ℕ → α := fun binIdx =>
  magnitudeDbBin sqrtf log10f log2f windowSize windowCoherentGain sampleRate
    binIdx (frequencyBins binIdx)

/-! ## Temporal and frequency-dependent smoothing (`src/audio/spectrum.rs`) -/

/-- Rust `SpectrumSpeed` enum. -/
inductive SpectrumSpeed : Type
  | verySlow
  | slow
  | medium
  | fast
  | veryFast
  deriving DecidableEq, Repr

/-- Rust `SpectrumSpeed::time_constants_ms(&self) -> (f32, f32)`. -/
def SpectrumSpeed.time_constants_ms (s : SpectrumSpeed) : α × α :=
  match s with
  | .verySlow => (100, 2000)
  | .slow => (50, 1000)
  | .medium => (20, 400)
  | .fast => (5, 100)
  | .veryFast => (1, 20)

/-- Rust `calculate_smoothing_alpha(time_ms, update_rate_hz)`. -/
def calculate_smoothing_alpha (expf : α → α) (timeMs updateRateHz : α) : α :=
  if timeMs ≤ 0 then
    1
  else
    let tau := timeMs / 1000
    let updatePeriod := 1 / updateRateHz
    1 - expf (-updatePeriod / tau)

/-- The per-bin body of the temporal-smoothing `map` closure in
`apply_spectrum_smoothing`: attack when rising, release when falling. -/
def temporalSmoothBin (attackAlpha releaseAlpha currentDb previousDb : α) : α :=
  if currentDb > previousDb then
    previousDb + (currentDb - previousDb) * attackAlpha
  else
    previousDb + (currentDb - previousDb) * releaseAlpha

/-- Successive outputs of the per-bin attack/release recurrence of
`apply_spectrum_smoothing` for one frequency bin across consecutive frames:
starting from the previous smoothed value `s0`, feed the raw per-frame inputs
one at a time; each output becomes the next frame's previous value. -/
def temporalSmoothSeq (attackAlpha releaseAlpha : α) : α → List α → List α
  | _, [] => []
  | s0, x :: xs =>
    let s1 := temporalSmoothBin attackAlpha releaseAlpha x s0
    s1 :: temporalSmoothSeq attackAlpha releaseAlpha s1 xs

/-- Absolute distance `(j as i32 - i as i32).abs() as f32`. -/
def absDistance (j i : ℕ) : α :=
  (((j : ℤ) - (i : ℤ)).natAbs : α)

/-- The Gaussian-weighted neighbourhood average used by the two upper branches
of `apply_frequency_dependent_smoothing` (kernel clamped to the slice,
`sum / weight_sum` guarded by `weight_sum > 0`, else the input value). -/
def gaussianSmoothAt (expf : α → α) (spectrum : ℕ → α) (len : ℕ) (i : ℕ)
    (kernelSizeConst : ℕ) (sigma : α) : α :=
  let kernelSize := min kernelSizeConst (len - 1)
  let halfKernel := kernelSize / 2
  let startIdx := i - halfKernel
  let endIdx := min (i + halfKernel) (len - 1)
  let sum := ∑ j in Finset.Icc startIdx endIdx,
    spectrum j * expf (-(absDistance j i * absDistance j i) / sigma)
  let weightSum := ∑ j in Finset.Icc startIdx endIdx,
    expf (-(absDistance j i * absDistance j i) / sigma)
  if weightSum > 0 then sum / weightSum else spectrum i

/-- The 5-point weighted average branch (800 Hz – 2 kHz) of
`apply_frequency_dependent_smoothing`. -/
def fivePointSmoothAt (spectrum : ℕ → α) (len : ℕ) (i : ℕ) : α :=
  let prev2 := spectrum (i - 2)
  let prev := spectrum (i - 1)
  let curr := spectrum i
  let next := spectrum (i + 1)
  let next2 := if i + 2 < len then spectrum (i + 2) else spectrum i
  prev2 * SMOOTH_WEIGHT_OUTER α + prev * SMOOTH_WEIGHT_INNER α
    + curr * SMOOTH_WEIGHT_CENTER α + next * SMOOTH_WEIGHT_INNER α
    + next2 * SMOOTH_WEIGHT_OUTER α

/-- Rust `apply_frequency_dependent_smoothing(spectrum, sample_rate)` on a slice of
length `len` (index-wise view; the Rust loop runs `i in 1..len-1` and reads
only the unsmoothed input `spectrum`, so each output index is independent). -/
def apply_frequency_dependent_smoothing (expf : α → α) (spectrum : ℕ → α)
    (sampleRate : α) (len : ℕ) : ℕ → α := fun i =>
  if 1 ≤ i ∧ i < len - 1 then
    let freq := ((i : α) * sampleRate) / (SPECTRUM_WINDOW_SIZE : α)
    if freq > SMOOTHING_HIGH_FREQ_HZ α then
      gaussianSmoothAt expf spectrum len i HIGH_FREQ_KERNEL_SIZE (GAUSSIAN_SIGMA_STRONG α)
    else if freq > SMOOTHING_MID_HIGH_FREQ_HZ α then
      gaussianSmoothAt expf spectrum len i MID_HIGH_FREQ_KERNEL_SIZE (GAUSSIAN_SIGMA_MODERATE α)
    else if freq > SMOOTHING_MID_FREQ_HZ α then
      fivePointSmoothAt spectrum len i
    else
      spectrum i
  else
    spectrum i

/-- Rust `apply_spectrum_smoothing(current_spectrum, previous_spectrum, speed,
sample_rate)`: temporal attack/release smoothing followed by
frequency-dependent smoothing.  The Rust function returns the same smoothed
vector twice (`(result.clone(), result)`), so a single function is returned. -/
def apply_spectrum_smoothing (expf : α → α)
    (currentSpectrum previousSpectrum : ℕ → α) (speed : SpectrumSpeed)
    (sampleRate : α) (len : ℕ) : ℕ → α :=
  let fftFrameRate := sampleRate / ((SPECTRUM_WINDOW_SIZE : α) * FFT_OVERLAP_FACTOR α)
  let attackMs := (SpectrumSpeed.time_constants_ms speed).1
  let releaseMs := (SpectrumSpeed.time_constants_ms speed).2
  let attackAlpha := calculate_smoothing_alpha expf attackMs fftFrameRate
  let releaseAlpha := calculate_smoothing_alpha expf releaseMs fftFrameRate
  let temporallySmoothed := fun i =>
    temporalSmoothBin attackAlpha releaseAlpha (currentSpectrum i) (previousSpectrum i)
  apply_frequency_dependent_smoothing expf temporallySmoothed sampleRate len

/-! ## The producer pipeline (`src/audio/spectrum.rs`) -/

/-- Mutable state of `SpectrumProducer` relevant to the analysis pipeline.
The ring buffer (`Vec<f32>` of length `2 * SPECTRUM_WINDOW_SIZE`) and the
time-domain buffer are modelled as functions `ℕ → α`. -/
structure ProducerState (α : Type*) where
  ringBuffer : ℕ → α
  ringBufferPos : ℕ
  samplesSinceFft : ℕ
  timeDomainBuffer : ℕ → α
  spectrumResult : ℕ → α
  previousSpectrum : ℕ → α
  fftFailureCount : ℕ

/-- The environment a `SpectrumProducer` closes over: the FFT library call
(which can fail, `realfft`'s `process` returning `Result`), the transcendental
library functions, the pre-computed adaptive windows and the strategy/speed
configuration. -/
structure PipelineEnv (α : Type*) where
  sqrtf : α → α
  log10f : α → α
  log2f : α → α
  expf : α → α
  fft : (ℕ → α) → Except Unit (ℕ → α × α)
  windows : AdaptiveWindows α
  strategy : AdaptiveWindowStrategy α
  speed : SpectrumSpeed

/-- One iteration of the per-sample loop in `add_samples_to_ring_buffer`:
write the mono sample at the write cursor, advance the cursor modulo the ring
length, and bump `samples_since_fft`.  (The Rust code first mixes the frame's
channels down to one mono sample; `sample` here is that mono value.) -/
def pushSample (ringLen : ℕ) (st : ProducerState α) (sample : α) : ProducerState α :=
  { st with
    ringBuffer := Function.update st.ringBuffer st.ringBufferPos sample
    ringBufferPos := (st.ringBufferPos + 1) % ringLen
    samplesSinceFft := st.samplesSinceFft + 1 }

/-- Rust `add_samples_to_ring_buffer` over a block of mono samples. -/
def add_samples_to_ring_buffer (ringLen : ℕ) (st : ProducerState α)
    (samples : List α) : ProducerState α :=
  samples.foldl (pushSample ringLen) st

/-- Rust `copy_from_ring_buffer`: the most recent `SPECTRUM_WINDOW_SIZE` samples,
in chronological order, as the new time-domain buffer (index-wise view).
`ringLen` is `ring_buffer.len()` (= `2 * windowSize` as constructed). -/
def copy_from_ring_buffer (windowSize ringLen : ℕ) (ringBuffer : ℕ → α)
    (ringBufferPos : ℕ) : ℕ → α := fun i =>
  let startPos :=
    if ringBufferPos ≥ windowSize then ringBufferPos - windowSize
    else ringLen - (windowSize - ringBufferPos)
  ringBuffer ((startPos + i) % ringLen)

/-- Rust `apply_window(samples, window_function)` (pointwise view of the
element-wise product). -/
def apply_window (samples windowFunction : ℕ → α) : ℕ → α := fun i =>
  samples i * windowFunction i

/-- Rust `compute_spectrum_with_window(audio_samples, window_coeffs, coherent_gain,
sample_rate)`: window the samples, run the FFT (an FFT error is ignored with
`let _ =`, leaving the freshly zero-initialized frequency buffer), and convert
to a dB magnitude spectrum. -/
def compute_spectrum_with_window (env : PipelineEnv α)
    (audioSamples windowCoeffs : ℕ → α) (coherentGain sampleRate : α) : ℕ → α :=
  let windowed := apply_window audioSamples windowCoeffs
  let freqBuffer : ℕ → α × α :=
    match env.fft windowed with
    | .ok b => b
    | .error _ => fun _ => (0, 0)
  compute_magnitude_spectrum env.sqrtf env.log10f env.log2f freqBuffer
    SPECTRUM_WINDOW_SIZE coherentGain sampleRate

/-- Rust `compute_adaptive_magnitude_spectrum(sample_rate)`: the current
time-domain buffer is used as the "original" audio for all three per-band
spectra, which are then blended by frequency. -/
def compute_adaptive_magnitude_spectrum (env : PipelineEnv α)
    (timeDomainBuffer : ℕ → α) (sampleRate : α) : ℕ → α :=
  let originalBuffer := timeDomainBuffer
  let lowSpectrum := compute_spectrum_with_window env originalBuffer
    env.windows.lowFreq.coefficients env.windows.lowFreq.coherentGain sampleRate
  let midSpectrum := compute_spectrum_with_window env originalBuffer
    env.windows.midFreq.coefficients env.windows.midFreq.coherentGain sampleRate
  let highSpectrum := compute_spectrum_with_window env originalBuffer
    env.windows.highFreq.coefficients env.windows.highFreq.coherentGain sampleRate
  blend_frequency_spectrums env.strategy lowSpectrum midSpectrum highSpectrum
    sampleRate SPECTRUM_WINDOW_SIZE

/-- Rust `SpectrumProducer::process(buffer, sample_rate)` for one audio callback:
accumulate the (mono-mixed) samples, and if the 50%-overlap hop threshold is
reached, run one analysis pass.  Returns the updated state together with the
frame written to the triple buffer (`none` when nothing is published this
call, e.g. on FFT failure or below-threshold accumulation). -/
def process (env : PipelineEnv α) (st : ProducerState α) (samples : List α)
    (sampleRate : α) : ProducerState α × Option (ℕ → α) :=
  let ringLen := SPECTRUM_WINDOW_SIZE * 2
  let st1 := add_samples_to_ring_buffer ringLen st samples
  if st1.samplesSinceFft ≥ SPECTRUM_WINDOW_SIZE / 2 then
    let st2 := { st1 with samplesSinceFft := 0 }
    let copied := copy_from_ring_buffer SPECTRUM_WINDOW_SIZE ringLen
      st2.ringBuffer st2.ringBufferPos
    let windowed := apply_window copied env.windows.midFreq.coefficients
    match env.fft windowed with
    | .error _ =>
      ({ st2 with
          timeDomainBuffer := windowed
          fftFailureCount := st2.fftFailureCount + 1 }, none)
    | .ok _ =>
      let blended := compute_adaptive_magnitude_spectrum env windowed sampleRate
      let smoothed := apply_spectrum_smoothing env.expf blended
        st2.previousSpectrum env.speed sampleRate SPECTRUM_BINS
      ({ st2 with
          timeDomainBuffer := windowed
          spectrumResult := smoothed
          previousSpectrum := smoothed }, some smoothed)
  else
    (st1, none)

/-- Iterated `process` over a list of callback blocks, collecting every frame
actually published to the triple buffer. -/
def processTrace (env : PipelineEnv α) (st : ProducerState α)
    (blocks : List (List α)) (sampleRate : α) : List (ℕ → α) :=
  match blocks with
  | [] => []
  | b :: bs =>
    let (st1, published) := process env st b sampleRate
    match published with
    | some frame => frame :: processTrace env st1 bs sampleRate
    | none => processTrace env st1 bs sampleRate

/-! ## Meter pipeline (`src/audio/meter.rs`) -/

/-- Rust `METER_ATTACK: f32 = 0.3`. -/
def METER_ATTACK : α := 3 / 10

/-- Rust `METER_RELEASE: f32 = 0.001`. -/
def METER_RELEASE : α := 1 / 1000

/-- Rust `PEAK_HOLD_CYCLES: u32 = 60`. -/
def PEAK_HOLD_CYCLES : ℕ := 60

/-- Rust `SILENCE_THRESHOLD_DB: f32 = -50.0`. -/
def SILENCE_THRESHOLD_DB : α := -50

/-- Rust `MeterState` struct. -/
structure MeterState (α : Type*) where
  smoothedLeft : α
  smoothedRight : α
  peakHoldLeft : α
  peakHoldRight : α
  peakHoldValue : α
  peakHoldCounter : ℕ
  silenceCounter : ℕ

/-- Rust `MeterConsumer::update_smoothing(state, left_db, right_db)`. -/
def update_smoothing (st : MeterState α) (leftDb rightDb : α) : MeterState α :=
  let smoothedLeft :=
    if leftDb > st.smoothedLeft then
      leftDb * METER_ATTACK + st.smoothedLeft * (1 - METER_ATTACK)
    else
      leftDb * METER_RELEASE + st.smoothedLeft * (1 - METER_RELEASE)
  let smoothedRight :=
    if rightDb > st.smoothedRight then
      rightDb * METER_ATTACK + st.smoothedRight * (1 - METER_ATTACK)
    else
      rightDb * METER_RELEASE + st.smoothedRight * (1 - METER_RELEASE)
  { st with smoothedLeft := smoothedLeft, smoothedRight := smoothedRight }

/-- Rust `MeterConsumer::update_peak_hold(state, left_db, right_db)`.
`minusInfinityDb` stands for the external `nih_plug` constant
`util::MINUS_INFINITY_DB` the holds are reset to. -/
def update_peak_hold (minusInfinityDb : α) (st : MeterState α)
    (leftDb rightDb : α) : MeterState α :=
  let peakHoldLeft := if leftDb > st.peakHoldLeft then leftDb else st.peakHoldLeft
  let newPeak1 := leftDb > st.peakHoldLeft
  let peakHoldRight := if rightDb > st.peakHoldRight then rightDb else st.peakHoldRight
  let newPeak2 := newPeak1 ∨ rightDb > st.peakHoldRight
  let currentPeak := max peakHoldLeft peakHoldRight
  let peakHoldValue :=
    if currentPeak > st.peakHoldValue then currentPeak else st.peakHoldValue
  let newPeak := newPeak2 ∨ currentPeak > st.peakHoldValue
  if newPeak then
    { st with
        peakHoldLeft := peakHoldLeft
        peakHoldRight := peakHoldRight
        peakHoldValue := peakHoldValue
        peakHoldCounter := 0 }
  else if st.peakHoldCounter + 1 ≥ PEAK_HOLD_CYCLES then
    { st with
        peakHoldLeft := minusInfinityDb
        peakHoldRight := minusInfinityDb
        peakHoldValue := minusInfinityDb
        peakHoldCounter := 0 }
  else
    { st with
        peakHoldLeft := peakHoldLeft
        peakHoldRight := peakHoldRight
        peakHoldValue := peakHoldValue
        peakHoldCounter := st.peakHoldCounter + 1 }

/-- Rust `MeterConsumer::update_silence_detection(state)`. -/
def update_silence_detection (minusInfinityDb : α) (st : MeterState α) :
    MeterState α :=
  let maxLevel := max st.smoothedLeft st.smoothedRight
  if maxLevel < SILENCE_THRESHOLD_DB then
    let silenceCounter := st.silenceCounter + 1
    if silenceCounter > 30 then
      let decayRate : α := 1 / 2
      let smoothedLeft :=
        if st.smoothedLeft > minusInfinityDb then
          let v := st.smoothedLeft - decayRate
          if v < -80 then minusInfinityDb else v
        else st.smoothedLeft
      let smoothedRight :=
        if st.smoothedRight > minusInfinityDb then
          let v := st.smoothedRight - decayRate
          if v < -80 then minusInfinityDb else v
        else st.smoothedRight
      { st with
          smoothedLeft := smoothedLeft
          smoothedRight := smoothedRight
          silenceCounter := silenceCounter }
    else
      { st with silenceCounter := silenceCounter }
  else
    { st with silenceCounter := 0 }

/-- Rust `MeterConsumer::update()` with the two atomic peak levels it read:
smoothing, then peak hold, then silence detection. -/
def meterUpdate (minusInfinityDb : α) (st : MeterState α)
    (leftDb rightDb : α) : MeterState α :=
  update_silence_detection minusInfinityDb
    (update_peak_hold minusInfinityDb (update_smoothing st leftDb rightDb)
      leftDb rightDb)

/-! ## Consumer-side reads (`src/audio/spectrum.rs`) -/

/-- Rust `SpectrumError` (from the repository's `audio/errors.rs`, visible here
only through its use in `spectrum.rs`). -/
inductive SpectrumError : Type
  | lockFailed (resource : String)
  deriving DecidableEq, Repr

/-- Rust `SpectrumConsumer::read()`: `try_lock` either succeeds — yielding the most
recently completed triple-buffer value — or fails immediately, in which case a
`LockFailed` error is returned.  The lock outcome and the buffered value are
the two environment inputs of this one-shot model. -/
def SpectrumConsumer_read (lockAcquired : Bool) (latest : ℕ → α) :
    Except SpectrumError (ℕ → α) :=
  if lockAcquired then
    .ok latest
  else
    .error (.lockFailed "spectrum output")

/-- Rust `SpectrumConsumer::read_or_silence()`:
`self.read().unwrap_or([SPECTRUM_FLOOR_DB; SPECTRUM_BINS])`. -/
def SpectrumConsumer_read_or_silence (lockAcquired : Bool) (latest : ℕ → α) :
    ℕ → α :=
  match SpectrumConsumer_read lockAcquired latest with
  | .ok data => data
  | .error _ => fun _ => SPECTRUM_FLOOR_DB α

/-! ## Claim-side definitions (written from the spec's words, for comparison
with the source-derived definitions above) -/

/-- Claim C1's per-bin formula, as stated: `amplitude = |bin| * (1/N if k = 0
else 2/N) / g`; `db = 20*log10(amplitude)` if `amplitude > 1e-8` else `-120`;
tilt `4.5 * log2(freq/1000)` added whenever `freq = k*sampleRate/N > 0`;
result clamped to at least `-120`. -/
def magnitudeDbBinClaimed (sqrtf log10f log2f : α → α) (windowSize : ℕ)
    (coherentGain sampleRate : α) (binIdx : ℕ) (complexBin : α × α) : α :=
  let amplitude := complexNorm sqrtf complexBin *
    (if binIdx = 0 then 1 / (windowSize : α) else 2 / (windowSize : α)) / coherentGain
  let db : α :=
    if amplitude > 1 / 100000000 then 20 * log10f amplitude else -120
  let freq := (binIdx : α) * sampleRate / (windowSize : α)
  let tilted := if 0 < freq then db + 45 / 10 * log2f (freq / 1000) else db
  max tilted (-120)

/-- Claim C1 amended: identical to `magnitudeDbBinClaimed` except that the
tilt is added exactly when `freq ≥ 0.001` (the code's `MIN_FREQ_THRESHOLD`
guard), not whenever `freq > 0`. -/
def magnitudeDbBinAmended (sqrtf log10f log2f : α → α) (windowSize : ℕ)
    (coherentGain sampleRate : α) (binIdx : ℕ) (complexBin : α × α) : α :=
  let amplitude := complexNorm sqrtf complexBin *
    (if binIdx = 0 then 1 / (windowSize : α) else 2 / (windowSize : α)) / coherentGain
  let db : α :=
    if amplitude > 1 / 100000000 then 20 * log10f amplitude else -120
  let freq := (binIdx : α) * sampleRate / (windowSize : α)
  let tilted := if 1 / 1000 ≤ freq then db + 45 / 10 * log2f (freq / 1000) else db
  max tilted (-120)

/-- The pre-smoothing spectrum actually produced by one analysis pass of
`SpectrumProducer::process` for analysis-window samples `raw`: `process`
first calls `apply_window` (mid-frequency window) on the time-domain buffer,
and `compute_adaptive_magnitude_spectrum` then treats that already-windowed
buffer as the "original audio data" for all three per-band spectra. -/
def analysisPassSpectrum (env : PipelineEnv α) (raw : ℕ → α)
    (sampleRate : α) : ℕ → α :=
  compute_adaptive_magnitude_spectrum env
    (apply_window raw env.windows.midFreq.coefficients) sampleRate

/-- Claim C3's version of the analysis pass: the three per-band magnitude
spectra are computed from the same **raw (un-windowed)** samples of the
analysis window, then blended by frequency. -/
def analysisPassSpectrumClaimed (env : PipelineEnv α) (raw : ℕ → α)
    (sampleRate : α) : ℕ → α :=
  let lowSpectrum := compute_spectrum_with_window env raw
    env.windows.lowFreq.coefficients env.windows.lowFreq.coherentGain sampleRate
  let midSpectrum := compute_spectrum_with_window env raw
    env.windows.midFreq.coefficients env.windows.midFreq.coherentGain sampleRate
  let highSpectrum := compute_spectrum_with_window env raw
    env.windows.highFreq.coefficients env.windows.highFreq.coherentGain sampleRate
  blend_frequency_spectrums env.strategy lowSpectrum midSpectrum highSpectrum
    sampleRate SPECTRUM_WINDOW_SIZE

/-! # Theorems -/

/-! ## Ring-buffer helper lemmas -/

lemma add_mod_ne_self (len pos d : ℕ) (hd : 0 < d) (hdl : d < len) :
    (pos + d) % len ≠ pos % len := by
  intro h
  have hmod : d ≡ 0 [MOD len] := by
    have h' : pos + d ≡ pos + 0 [MOD len] := by
      simpa [Nat.ModEq, Nat.add_zero] using h
    exact h'.add_left_cancel' pos
  have hdvd : len ∣ d := (Nat.modEq_zero_iff_dvd).mp hmod
  exact absurd (Nat.le_of_dvd hd hdvd) (not_le.mpr hdl)

lemma add_samples_to_ring_buffer_pos (ringLen : ℕ) :
    ∀ (xs : List α) (st : ProducerState α), st.ringBufferPos < ringLen →
      (add_samples_to_ring_buffer ringLen st xs).ringBufferPos
        = (st.ringBufferPos + xs.length) % ringLen := by
  intro xs
  induction xs with
  | nil =>
    intro st hpos
    simp [add_samples_to_ring_buffer, Nat.mod_eq_of_lt hpos]
  | cons x t ih =>
    intro st hpos
    have hlen : 0 < ringLen := Nat.pos_of_ne_zero (by rintro rfl; omega)
    have hpos' : (pushSample ringLen st x).ringBufferPos < ringLen := by
      simp only [pushSample]
      exact Nat.mod_lt _ hlen
    have := ih (pushSample ringLen st x) hpos'
    simp only [add_samples_to_ring_buffer, List.foldl_cons] at this ⊢
    rw [this]
    simp only [pushSample, List.length_cons]
    rw [Nat.mod_add_mod]
    ring_nf

lemma add_samples_to_ring_buffer_untouched (ringLen : ℕ) (hlen : 0 < ringLen) :
    ∀ (xs : List α) (st : ProducerState α) (q : ℕ),
      st.ringBufferPos < ringLen →
      (∀ j, j < xs.length → (st.ringBufferPos + j) % ringLen ≠ q) →
      (add_samples_to_ring_buffer ringLen st xs).ringBuffer q = st.ringBuffer q := by
  intro xs
  induction xs with
  | nil => intro st q _ _; rfl
  | cons x t ih =>
    intro st q hpos hq
    have h0 : st.ringBufferPos ≠ q := by
      have := hq 0 (by simp)
      simpa [Nat.mod_eq_of_lt hpos] using this
    have hpos' : (pushSample ringLen st x).ringBufferPos < ringLen := by
      simp only [pushSample]
      exact Nat.mod_lt _ hlen
    have hq' : ∀ j, j < t.length →
        ((pushSample ringLen st x).ringBufferPos + j) % ringLen ≠ q := by
      intro j hj
      have := hq (j + 1) (by simpa using Nat.succ_lt_succ hj)
      simp only [pushSample]
      rw [Nat.mod_add_mod]
      simpa [Nat.add_assoc, Nat.add_comm 1 j] using this
    show (add_samples_to_ring_buffer ringLen (pushSample ringLen st x) t).ringBuffer q
      = st.ringBuffer q
    rw [ih (pushSample ringLen st x) q hpos' hq']
    simp only [pushSample]
    exact Function.update_noteq (Ne.symm h0) x st.ringBuffer

lemma add_samples_to_ring_buffer_written (ringLen : ℕ) (hlen : 0 < ringLen) :
    ∀ (xs : List α) (st : ProducerState α) (i : ℕ),
      st.ringBufferPos < ringLen → xs.length ≤ ringLen → i < xs.length →
      (add_samples_to_ring_buffer ringLen st xs).ringBuffer
        ((st.ringBufferPos + i) % ringLen) = xs.getD i 0 := by
  intro xs
  induction xs with
  | nil => intro st i _ _ hi; simp at hi
  | cons x t ih =>
    intro st i hpos hxs hi
    have hpos' : (pushSample ringLen st x).ringBufferPos < ringLen := by
      simp only [pushSample]
      exact Nat.mod_lt _ hlen
    cases i with
    | zero =>
      have hq : ∀ j, j < t.length →
          ((pushSample ringLen st x).ringBufferPos + j) % ringLen
            ≠ (st.ringBufferPos + 0) % ringLen := by
        intro j hj
        simp only [pushSample]
        rw [Nat.mod_add_mod, Nat.add_assoc]
        exact add_mod_ne_self ringLen st.ringBufferPos (1 + j) (by omega)
          (by simp only [List.length_cons] at hxs; omega)
      show (add_samples_to_ring_buffer ringLen (pushSample ringLen st x) t).ringBuffer
        ((st.ringBufferPos + 0) % ringLen) = x
      rw [add_samples_to_ring_buffer_untouched ringLen hlen t _ _ hpos' hq]
      simp only [pushSample, Nat.add_zero, Nat.mod_eq_of_lt hpos]
      exact Function.update_same _ _ _
    | succ i =>
      have heq : ((pushSample ringLen st x).ringBufferPos + i) % ringLen
          = (st.ringBufferPos + (i + 1)) % ringLen := by
        simp only [pushSample]
        rw [Nat.mod_add_mod]
        ring_nf
      have := ih (pushSample ringLen st x) i hpos'
        (by simp only [List.length_cons] at hxs; omega)
        (by simpa using Nat.lt_of_succ_lt_succ hi)
      rw [heq] at this
      simpa using this

/-- C4: pushing exactly `windowSize` mono samples into the `2*windowSize` ring
buffer and then snapshotting the most recent `windowSize` samples into the
analysis buffer returns the pushed samples in their original chronological
order, for every starting write-cursor position (wrapping included). -/
theorem ring_buffer_round_trip (windowSize : ℕ) (hN : 0 < windowSize)
    (st : ProducerState α) (hpos : st.ringBufferPos < 2 * windowSize)
    (samples : List α) (hsamples : samples.length = windowSize)
    (i : ℕ) (hi : i < windowSize) :
    copy_from_ring_buffer windowSize (2 * windowSize)
      (add_samples_to_ring_buffer (2 * windowSize) st samples).ringBuffer
      (add_samples_to_ring_buffer (2 * windowSize) st samples).ringBufferPos i
      = samples.getD i 0 := by
  set N := windowSize
  set len := 2 * N with hlenDef
  have hlen : 0 < len := by omega
  have hposEq : (add_samples_to_ring_buffer len st samples).ringBufferPos
      = (st.ringBufferPos + N) % len := by
    rw [add_samples_to_ring_buffer_pos len samples st hpos, hsamples]
  set pos := st.ringBufferPos with hposDef
  have hstart :
      (let startPos := if (st.ringBufferPos + N) % len ≥ N
          then (st.ringBufferPos + N) % len - N
          else len - (N - (st.ringBufferPos + N) % len);
        startPos) = pos := by
    by_cases hc : pos < N
    · have hmod : (pos + N) % len = pos + N := Nat.mod_eq_of_lt (by omega)
      simp only [hmod]
      rw [if_pos (by omega)]
      omega
    · have hmod : (pos + N) % len = pos - N := by
        rw [Nat.mod_eq_sub_mod (by omega)]
        have hsub : pos + N - len = pos - N := by omega
        rw [hsub]
        exact Nat.mod_eq_of_lt (by omega)
      simp only [hmod]
      by_cases hc2 : pos - N ≥ N
      · omega
      · rw [if_neg hc2]
        omega
  unfold copy_from_ring_buffer
  rw [hposEq]
  simp only at hstart ⊢
  rw [hstart]
  have h1 : samples.length ≤ len := by omega
  have h2 : i < samples.length := by omega
  exact add_samples_to_ring_buffer_written len hlen samples st i hpos h1 h2

/-- Witness for C4 at a wrapping cursor position. -/
theorem ring_buffer_round_trip_witness :
    (0 < 2 ∧ 3 < 2 * 2 ∧ ([5, 7] : List ℚ).length = 2 ∧ 1 < 2) ∧
    copy_from_ring_buffer 2 (2 * 2)
      (add_samples_to_ring_buffer (2 * 2)
        (⟨fun _ => 0, 3, 0, fun _ => 0, fun _ => 0, fun _ => 0, 0⟩ : ProducerState ℚ)
        [5, 7]).ringBuffer
      (add_samples_to_ring_buffer (2 * 2)
        (⟨fun _ => 0, 3, 0, fun _ => 0, fun _ => 0, fun _ => 0, 0⟩ : ProducerState ℚ)
        [5, 7]).ringBufferPos 1
      = ([5, 7] : List ℚ).getD 1 0 :=
  ⟨by refine ⟨by decide, by decide, by decide, by decide⟩,
    ring_buffer_round_trip 2 (by decide)
      (⟨fun _ => 0, 3, 0, fun _ => 0, fun _ => 0, fun _ => 0, 0⟩ : ProducerState ℚ)
      (by decide) [5, 7] (by decide) 1 (by decide)⟩

/-! ## Blend bounds (helpers shared by C2 and C9) -/

lemma convex_comb_bounds (a b t lo hi : α) (ha1 : lo ≤ a) (ha2 : a ≤ hi)
    (hb1 : lo ≤ b) (hb2 : b ≤ hi) (ht0 : 0 ≤ t) (ht1 : t ≤ 1) :
    lo ≤ a * (1 - t) + b * t ∧ a * (1 - t) + b * t ≤ hi := by
  constructor <;> nlinarith

lemma blend_frequency_spectrums_bounds (s : AdaptiveWindowStrategy α)
    (hlm : s.lowMidCrossfade.1 < s.lowMidCrossfade.2)
    (hmh : s.midHighCrossfade.1 < s.midHighCrossfade.2)
    (low mid high : ℕ → α) (sampleRate : α) (windowSize binIdx : ℕ) :
    min (low binIdx) (min (mid binIdx) (high binIdx))
        ≤ blend_frequency_spectrums s low mid high sampleRate windowSize binIdx
      ∧ blend_frequency_spectrums s low mid high sampleRate windowSize binIdx
        ≤ max (low binIdx) (max (mid binIdx) (high binIdx)) := by
  have hminl : min (low binIdx) (min (mid binIdx) (high binIdx)) ≤ low binIdx :=
    min_le_left _ _
  have hminm : min (low binIdx) (min (mid binIdx) (high binIdx)) ≤ mid binIdx :=
    le_trans (min_le_right _ _) (min_le_left _ _)
  have hminh : min (low binIdx) (min (mid binIdx) (high binIdx)) ≤ high binIdx :=
    le_trans (min_le_right _ _) (min_le_right _ _)
  have hmaxl : low binIdx ≤ max (low binIdx) (max (mid binIdx) (high binIdx)) :=
    le_max_left _ _
  have hmaxm : mid binIdx ≤ max (low binIdx) (max (mid binIdx) (high binIdx)) :=
    le_trans (le_max_left _ _) (le_max_right _ _)
  have hmaxh : high binIdx ≤ max (low binIdx) (max (mid binIdx) (high binIdx)) :=
    le_trans (le_max_right _ _) (le_max_right _ _)
  unfold blend_frequency_spectrums
  simp only
  split_ifs with h1 h2 h3 h4
  · exact ⟨hminl, hmaxl⟩
  · have hd : (0 : α) < s.lowMidCrossfade.2 - s.lowMidCrossfade.1 := sub_pos.mpr hlm
    have ht0 : 0 ≤ (((binIdx : α) * sampleRate) / (windowSize : α) - s.lowMidCrossfade.1)
        / (s.lowMidCrossfade.2 - s.lowMidCrossfade.1) :=
      div_nonneg (by linarith [not_lt.mp h1]) hd.le
    have ht1 : (((binIdx : α) * sampleRate) / (windowSize : α) - s.lowMidCrossfade.1)
        / (s.lowMidCrossfade.2 - s.lowMidCrossfade.1) ≤ 1 :=
      (div_le_one hd).mpr (by linarith)
    exact convex_comb_bounds _ _ _ _ _ hminl hmaxl hminm hmaxm ht0 ht1
  · exact ⟨hminm, hmaxm⟩
  · have hd : (0 : α) < s.midHighCrossfade.2 - s.midHighCrossfade.1 := sub_pos.mpr hmh
    have ht0 : 0 ≤ (((binIdx : α) * sampleRate) / (windowSize : α) - s.midHighCrossfade.1)
        / (s.midHighCrossfade.2 - s.midHighCrossfade.1) :=
      div_nonneg (by linarith [not_lt.mp h3]) hd.le
    have ht1 : (((binIdx : α) * sampleRate) / (windowSize : α) - s.midHighCrossfade.1)
        / (s.midHighCrossfade.2 - s.midHighCrossfade.1) ≤ 1 :=
      (div_le_one hd).mpr (by linarith)
    exact convex_comb_bounds _ _ _ _ _ hminm hmaxm hminh hmaxh ht0 ht1
  · exact ⟨hminh, hmaxh⟩

/-- C9: with crossfade bands whose lower edge is strictly below their upper
edge, every blended bin value lies between the minimum and the maximum of the
three input spectra's values at that bin. -/
theorem blend_value_between_min_and_max (s : AdaptiveWindowStrategy α)
    (hlm : s.lowMidCrossfade.1 < s.lowMidCrossfade.2)
    (hmh : s.midHighCrossfade.1 < s.midHighCrossfade.2)
    (low mid high : ℕ → α) (sampleRate : α) (windowSize binIdx : ℕ) :
    min (low binIdx) (min (mid binIdx) (high binIdx))
        ≤ blend_frequency_spectrums s low mid high sampleRate windowSize binIdx
      ∧ blend_frequency_spectrums s low mid high sampleRate windowSize binIdx
        ≤ max (low binIdx) (max (mid binIdx) (high binIdx)) :=
  blend_frequency_spectrums_bounds s hlm hmh low mid high sampleRate windowSize binIdx

/-- Witness for C9 inside the low-mid crossfade band (default strategy at
48 kHz: bin 21 has centre frequency 492.2 Hz ∈ [480, 520)). -/
theorem blend_value_between_min_and_max_witness :
    ((AdaptiveWindowStrategy.default : AdaptiveWindowStrategy ℚ).lowMidCrossfade.1
        < AdaptiveWindowStrategy.default.lowMidCrossfade.2
      ∧ (AdaptiveWindowStrategy.default : AdaptiveWindowStrategy ℚ).midHighCrossfade.1
        < AdaptiveWindowStrategy.default.midHighCrossfade.2) ∧
    (min ((fun _ => (-30 : ℚ)) 21) (min ((fun _ => (-20 : ℚ)) 21) ((fun _ => (-10 : ℚ)) 21))
        ≤ blend_frequency_spectrums AdaptiveWindowStrategy.default
            (fun _ => (-30 : ℚ)) (fun _ => (-20 : ℚ)) (fun _ => (-10 : ℚ)) 48000 2048 21
      ∧ blend_frequency_spectrums AdaptiveWindowStrategy.default
            (fun _ => (-30 : ℚ)) (fun _ => (-20 : ℚ)) (fun _ => (-10 : ℚ)) 48000 2048 21
        ≤ max ((fun _ => (-30 : ℚ)) 21)
            (max ((fun _ => (-20 : ℚ)) 21) ((fun _ => (-10 : ℚ)) 21))) :=
  ⟨⟨by norm_num [AdaptiveWindowStrategy.default], by norm_num [AdaptiveWindowStrategy.default]⟩,
    blend_value_between_min_and_max AdaptiveWindowStrategy.default
      (by norm_num [AdaptiveWindowStrategy.default])
      (by norm_num [AdaptiveWindowStrategy.default])
      (fun _ => (-30 : ℚ)) (fun _ => (-20 : ℚ)) (fun _ => (-10 : ℚ)) 48000 2048 21⟩

/-! ## Window-generation helpers and C8 -/

lemma getD_range_map (f : ℕ → α) {n i : ℕ} (hi : i < n) :
    ((List.range n).map f).getD i 0 = f i := by
  rw [List.getD_eq_getElem?_getD, List.getElem?_map, List.getElem?_range hi]
  rfl

/-- C8: window generation is the pure function of (shape, N) given by the
spec's formulas, coherent gain is the mean of the coefficients, and the
rectangular window of any size `N ∈ [1, 2^24]` has coherent gain exactly 1. -/
theorem window_generation_matches_spec (cosf : α → α) (pi : α) (N : ℕ)
    (hN : 0 < N) (i : ℕ) (hi : i < N) :
    (WindowType.generate .rectangular cosf pi N).getD i 0 = 1
  ∧ (WindowType.generate .hann cosf pi N).getD i 0
      = 1 / 2 * (1 - cosf (2 * pi * (i : α) / (N : α)))
  ∧ (WindowType.generate .hamming cosf pi N).getD i 0
      = 54 / 100 - 46 / 100 * cosf (2 * pi * (i : α) / (N : α))
  ∧ (WindowType.generate .blackman cosf pi N).getD i 0
      = 42 / 100 - 1 / 2 * cosf (2 * pi * (i : α) / (N : α))
        + 8 / 100 * cosf (4 * pi * (i : α) / (N : α))
  ∧ (∀ coefficients : List α, WindowType.coherent_gain coefficients
      = coefficients.sum / (coefficients.length : α))
  ∧ (N ≤ 2 ^ 24 → WindowType.coherent_gain
      ((WindowType.generate .rectangular cosf pi N : List α)) = 1) := by
  refine ⟨?_, ?_, ?_, ?_, fun _ => rfl, fun _ => ?_⟩
  · rw [show WindowType.generate .rectangular cosf pi N = List.replicate N (1 : α) from rfl]
    rw [List.getD_eq_getElem?_getD, List.getElem?_replicate, if_pos hi]
    rfl
  · rw [show WindowType.generate .hann cosf pi N
      = (List.range N).map (hannCoeff cosf pi N) from rfl]
    rw [getD_range_map _ hi, hannCoeff, mul_div_assoc]
  · rw [show WindowType.generate .hamming cosf pi N
      = (List.range N).map (hammingCoeff cosf pi N) from rfl]
    rw [getD_range_map _ hi, hammingCoeff, mul_div_assoc]
  · rw [show WindowType.generate .blackman cosf pi N
      = (List.range N).map (blackmanCoeff cosf pi N) from rfl]
    rw [getD_range_map _ hi, blackmanCoeff, mul_div_assoc, mul_div_assoc]
  · rw [show WindowType.generate .rectangular cosf pi N = List.replicate N (1 : α) from rfl]
    unfold WindowType.coherent_gain
    rw [List.sum_replicate, List.length_replicate, nsmul_eq_mul, mul_one]
    exact div_self (Nat.cast_ne_zero.mpr (by omega))

/-- Witness for C8. -/
theorem window_generation_matches_spec_witness :
    ((0 : ℕ) < 3 ∧ (1 : ℕ) < 3) ∧
    ((WindowType.generate .rectangular (fun x : ℚ => x) 3 3).getD 1 0 = 1
  ∧ (WindowType.generate .hann (fun x : ℚ => x) 3 3).getD 1 0
      = 1 / 2 * (1 - (fun x : ℚ => x) (2 * 3 * (1 : ℚ) / (3 : ℚ)))
  ∧ (WindowType.generate .hamming (fun x : ℚ => x) 3 3).getD 1 0
      = 54 / 100 - 46 / 100 * (fun x : ℚ => x) (2 * 3 * (1 : ℚ) / (3 : ℚ))
  ∧ (WindowType.generate .blackman (fun x : ℚ => x) 3 3).getD 1 0
      = 42 / 100 - 1 / 2 * (fun x : ℚ => x) (2 * 3 * (1 : ℚ) / (3 : ℚ))
        + 8 / 100 * (fun x : ℚ => x) (4 * 3 * (1 : ℚ) / (3 : ℚ))
  ∧ (∀ coefficients : List ℚ, WindowType.coherent_gain coefficients
      = coefficients.sum / (coefficients.length : ℚ))
  ∧ (3 ≤ 2 ^ 24 → WindowType.coherent_gain
      ((WindowType.generate .rectangular (fun x : ℚ => x) 3 3 : List ℚ)) = 1)) := by
  constructor
  · exact ⟨by decide, by decide⟩
  · have h := window_generation_matches_spec (fun x : ℚ => x) 3 3 (by decide) 1 (by decide)
    simpa using h

/-! ## C10: consumer-side lock behaviour -/

/-- C10: when the internal lock cannot be acquired, `read()` returns a
`LockFailed` error and `read_or_silence()` returns the all-floor (−120 dB)
frame; when the lock is acquired, `read_or_silence()` returns exactly the most
recently read triple-buffer value. -/
theorem consumer_read_lock_behaviour (latest : ℕ → α) :
    (SpectrumConsumer_read false latest
        = .error (.lockFailed "spectrum output")
      ∧ (∀ i, SpectrumConsumer_read_or_silence false latest i = -120))
    ∧ (SpectrumConsumer_read true latest = .ok latest
      ∧ SpectrumConsumer_read_or_silence true latest = latest) := by
  refine ⟨⟨rfl, fun i => ?_⟩, rfl, rfl⟩
  show SPECTRUM_FLOOR_DB α = -120
  rfl

/-! ## Meter peak-hold helpers and C7 -/

lemma update_smoothing_peakHoldLeft (st : MeterState α) (l r : α) :
    (update_smoothing st l r).peakHoldLeft = st.peakHoldLeft := rfl

lemma update_smoothing_peakHoldRight (st : MeterState α) (l r : α) :
    (update_smoothing st l r).peakHoldRight = st.peakHoldRight := rfl

lemma update_smoothing_peakHoldValue (st : MeterState α) (l r : α) :
    (update_smoothing st l r).peakHoldValue = st.peakHoldValue := rfl

lemma update_smoothing_peakHoldCounter (st : MeterState α) (l r : α) :
    (update_smoothing st l r).peakHoldCounter = st.peakHoldCounter := rfl

lemma update_silence_detection_peakHoldLeft (mi : α) (st : MeterState α) :
    (update_silence_detection mi st).peakHoldLeft = st.peakHoldLeft := by
  unfold update_silence_detection
  dsimp only
  split_ifs <;> rfl

lemma update_silence_detection_peakHoldRight (mi : α) (st : MeterState α) :
    (update_silence_detection mi st).peakHoldRight = st.peakHoldRight := by
  unfold update_silence_detection
  dsimp only
  split_ifs <;> rfl

lemma update_silence_detection_peakHoldValue (mi : α) (st : MeterState α) :
    (update_silence_detection mi st).peakHoldValue = st.peakHoldValue := by
  unfold update_silence_detection
  dsimp only
  split_ifs <;> rfl

lemma update_silence_detection_peakHoldCounter (mi : α) (st : MeterState α) :
    (update_silence_detection mi st).peakHoldCounter = st.peakHoldCounter := by
  unfold update_silence_detection
  dsimp only
  split_ifs <;> rfl

/-- A meter update whose level exceeds all current holds: all three hold
values jump to the level and the hold timer resets. -/
lemma meterUpdate_new_peak (mi l : α) (st : MeterState α)
    (hL : l > st.peakHoldLeft) (hR : l > st.peakHoldRight)
    (hV : l > st.peakHoldValue) :
    (meterUpdate mi st l l).peakHoldLeft = l
    ∧ (meterUpdate mi st l l).peakHoldRight = l
    ∧ (meterUpdate mi st l l).peakHoldValue = l
    ∧ (meterUpdate mi st l l).peakHoldCounter = 0 := by
  unfold meterUpdate
  rw [update_silence_detection_peakHoldLeft, update_silence_detection_peakHoldRight,
    update_silence_detection_peakHoldValue, update_silence_detection_peakHoldCounter]
  unfold update_peak_hold
  simp only [update_smoothing_peakHoldLeft, update_smoothing_peakHoldRight,
    update_smoothing_peakHoldValue, update_smoothing_peakHoldCounter,
    if_pos hL, if_pos hR, max_self]
  rw [if_pos (Or.inl (Or.inl hL))]
  rw [if_pos hV]
  exact ⟨rfl, rfl, rfl, rfl⟩

/-- A meter update at a level not above any current hold: no new peak, so the
holds are kept and the timer advances — unless it reaches
`PEAK_HOLD_CYCLES`, in which case all three holds reset to
`minus_infinity_db` and the timer restarts. -/
lemma meterUpdate_silent_step (mi s : α) (st : MeterState α)
    (hL : ¬ s > st.peakHoldLeft) (hR : ¬ s > st.peakHoldRight)
    (hV : ¬ max st.peakHoldLeft st.peakHoldRight > st.peakHoldValue) :
    ((meterUpdate mi st s s).peakHoldLeft,
      (meterUpdate mi st s s).peakHoldRight,
      (meterUpdate mi st s s).peakHoldValue,
      (meterUpdate mi st s s).peakHoldCounter)
      = if st.peakHoldCounter + 1 ≥ PEAK_HOLD_CYCLES
        then (mi, mi, mi, 0)
        else (st.peakHoldLeft, st.peakHoldRight, st.peakHoldValue,
          st.peakHoldCounter + 1) := by
  unfold meterUpdate
  rw [update_silence_detection_peakHoldLeft, update_silence_detection_peakHoldRight,
    update_silence_detection_peakHoldValue, update_silence_detection_peakHoldCounter]
  unfold update_peak_hold
  simp only [update_smoothing_peakHoldLeft, update_smoothing_peakHoldRight,
    update_smoothing_peakHoldValue, update_smoothing_peakHoldCounter,
    if_neg hL, if_neg hR]
  rw [if_neg hV]
  have hnp : ¬ (((s > st.peakHoldLeft) ∨ (s > st.peakHoldRight))
      ∨ max st.peakHoldLeft st.peakHoldRight > st.peakHoldValue) := by
    push_neg at hL hR hV ⊢
    exact ⟨⟨hL, hR⟩, hV⟩
  rw [if_neg hnp]
  split_ifs <;> rfl

/-- C7: after one update at a high level, the held peak stays exactly at that
level through `PEAK_HOLD_CYCLES - 1` consecutive lower-level (no-new-peak)
update cycles — i.e. `PEAK_HOLD_CYCLES` consecutive reads show it — and on
the `PEAK_HOLD_CYCLES`-th lower-level update the hold releases: the held
value drops below the peak (to the reset floor) instead of remaining there. -/
theorem peak_hold_holds_then_releases (mi high s : α) (st : MeterState α)
    (hL : high > st.peakHoldLeft) (hR : high > st.peakHoldRight)
    (hV : high > st.peakHoldValue) (hs : s ≤ high) (hmi : mi < high) :
    (∀ k, k ≤ PEAK_HOLD_CYCLES - 1 →
      ((fun st0 => meterUpdate mi st0 s s)^[k]
        (meterUpdate mi st high high)).peakHoldValue = high)
    ∧ ((fun st0 => meterUpdate mi st0 s s)^[PEAK_HOLD_CYCLES]
        (meterUpdate mi st high high)).peakHoldValue = mi
    ∧ ((fun st0 => meterUpdate mi st0 s s)^[PEAK_HOLD_CYCLES]
        (meterUpdate mi st high high)).peakHoldValue < high := by
  set step := fun st0 => meterUpdate mi st0 s s with hstep
  set st1 := meterUpdate mi st high high with hst1
  obtain ⟨h1L, h1R, h1V, h1C⟩ := meterUpdate_new_peak mi high st hL hR hV
  have key : ∀ k, k ≤ PEAK_HOLD_CYCLES - 1 →
      (step^[k] st1).peakHoldLeft = high
      ∧ (step^[k] st1).peakHoldRight = high
      ∧ (step^[k] st1).peakHoldValue = high
      ∧ (step^[k] st1).peakHoldCounter = k := by
    intro k
    induction k with
    | zero => intro _; exact ⟨h1L, h1R, h1V, h1C⟩
    | succ n ih =>
      intro hn
      have hn' : n ≤ PEAK_HOLD_CYCLES - 1 := by omega
      obtain ⟨ihL, ihR, ihV, ihC⟩ := ih hn'
      rw [Function.iterate_succ_apply']
      have hsil := meterUpdate_silent_step mi s (step^[n] st1)
        (by rw [ihL]; exact not_lt.mpr hs)
        (by rw [ihR]; exact not_lt.mpr hs)
        (by rw [ihL, ihR, ihV, max_self]; exact lt_irrefl high)
      rw [ihL, ihR, ihV, ihC] at hsil
      rw [if_neg (by unfold PEAK_HOLD_CYCLES at hn ⊢; omega)] at hsil
      simp only [Prod.mk.injEq] at hsil
      exact ⟨hsil.1, hsil.2.1, hsil.2.2.1, hsil.2.2.2⟩
  have hval : (step^[PEAK_HOLD_CYCLES] st1).peakHoldValue = mi := by
    have h59 := key (PEAK_HOLD_CYCLES - 1) (le_refl _)
    obtain ⟨kL, kR, kV, kC⟩ := h59
    have hiter : step^[PEAK_HOLD_CYCLES] st1
        = step (step^[PEAK_HOLD_CYCLES - 1] st1) := by
      have hpc : PEAK_HOLD_CYCLES = (PEAK_HOLD_CYCLES - 1) + 1 := rfl
      rw [hpc]
      exact Function.iterate_succ_apply' step (PEAK_HOLD_CYCLES - 1) st1
    rw [hiter]
    have hsil := meterUpdate_silent_step mi s (step^[PEAK_HOLD_CYCLES - 1] st1)
      (by rw [kL]; exact not_lt.mpr hs)
      (by rw [kR]; exact not_lt.mpr hs)
      (by rw [kL, kR, kV, max_self]; exact lt_irrefl high)
    rw [kC] at hsil
    rw [if_pos (by unfold PEAK_HOLD_CYCLES; omega)] at hsil
    simp only [Prod.mk.injEq] at hsil
    exact hsil.2.2.1
  exact ⟨fun k hk => (key k hk).2.2.1, hval, hval ▸ hmi⟩

/-- Witness for C7. -/
theorem peak_hold_holds_then_releases_witness :
    (((0 : ℚ) > -100 ∧ (0 : ℚ) > -100 ∧ (0 : ℚ) > -100)
      ∧ (-70 : ℚ) ≤ 0 ∧ (-100 : ℚ) < 0) ∧
    ((∀ k, k ≤ PEAK_HOLD_CYCLES - 1 →
      ((fun st0 => meterUpdate (-100 : ℚ) st0 (-70) (-70))^[k]
        (meterUpdate (-100)
          (⟨-100, -100, -100, -100, -100, 0, 0⟩ : MeterState ℚ)
          0 0)).peakHoldValue = 0)
    ∧ ((fun st0 => meterUpdate (-100 : ℚ) st0 (-70) (-70))^[PEAK_HOLD_CYCLES]
        (meterUpdate (-100)
          (⟨-100, -100, -100, -100, -100, 0, 0⟩ : MeterState ℚ)
          0 0)).peakHoldValue = -100
    ∧ ((fun st0 => meterUpdate (-100 : ℚ) st0 (-70) (-70))^[PEAK_HOLD_CYCLES]
        (meterUpdate (-100)
          (⟨-100, -100, -100, -100, -100, 0, 0⟩ : MeterState ℚ)
          0 0)).peakHoldValue < 0) :=
  ⟨⟨⟨by norm_num, by norm_num, by norm_num⟩, by norm_num, by norm_num⟩,
    peak_hold_holds_then_releases (-100) 0 (-70)
      (⟨-100, -100, -100, -100, -100, 0, 0⟩ : MeterState ℚ)
      (by norm_num) (by norm_num) (by norm_num) (by norm_num) (by norm_num)⟩

/-! ## Temporal-smoothing monotonicity helpers and C5 -/

lemma temporalSmoothBin_between (a r x s : α) (ha : 0 ≤ a) (ha1 : a ≤ 1)
    (hr : 0 ≤ r) (hr1 : r ≤ 1) (hs : s ≤ x) :
    s ≤ temporalSmoothBin a r x s ∧ temporalSmoothBin a r x s ≤ x := by
  unfold temporalSmoothBin
  split_ifs with h
  · constructor <;> nlinarith
  · constructor <;> nlinarith

lemma temporalSmoothBin_between_ge (a r x s : α) (hr : 0 ≤ r) (hr1 : r ≤ 1)
    (hs : x ≤ s) :
    x ≤ temporalSmoothBin a r x s ∧ temporalSmoothBin a r x s ≤ s := by
  unfold temporalSmoothBin
  rw [if_neg (not_lt.mpr hs)]
  constructor <;> nlinarith

lemma temporalSmoothSeq_increasing (a r : α) (ha : 0 ≤ a) (ha1 : a ≤ 1)
    (hr : 0 ≤ r) (hr1 : r ≤ 1) :
    ∀ (xs : List α) (s0 : α), List.Chain' (· < ·) xs → s0 ≤ xs.getD 0 s0 →
      List.Chain' (· ≤ ·) (s0 :: temporalSmoothSeq a r s0 xs)
        ∧ List.Forall₂ (· ≤ ·) (temporalSmoothSeq a r s0 xs) xs := by
  intro xs
  induction xs with
  | nil => intro s0 _ _; exact ⟨List.chain'_singleton s0, List.Forall₂.nil⟩
  | cons x t ih =>
    intro s0 hchain h0
    have hx : s0 ≤ x := by simpa using h0
    obtain ⟨hb1, hb2⟩ := temporalSmoothBin_between a r x s0 ha ha1 hr hr1 hx
    have hchain_t : List.Chain' (· < ·) t := hchain.tail
    have hhead : temporalSmoothBin a r x s0
        ≤ t.getD 0 (temporalSmoothBin a r x s0) := by
      cases t with
      | nil => simp
      | cons y u =>
        have hxy : x < y := (List.chain'_cons.mp hchain).1
        simpa using le_trans hb2 (le_of_lt hxy)
    obtain ⟨ihc, ihf⟩ := ih (temporalSmoothBin a r x s0) hchain_t hhead
    have hseq : temporalSmoothSeq a r s0 (x :: t)
        = temporalSmoothBin a r x s0
          :: temporalSmoothSeq a r (temporalSmoothBin a r x s0) t := rfl
    rw [hseq]
    exact ⟨List.chain'_cons.mpr ⟨hb1, ihc⟩, List.Forall₂.cons hb2 ihf⟩

lemma temporalSmoothSeq_decreasing (a r : α) (ha : 0 ≤ a) (ha1 : a ≤ 1)
    (hr : 0 ≤ r) (hr1 : r ≤ 1) :
    ∀ (xs : List α) (s0 : α), List.Chain' (· > ·) xs → xs.getD 0 s0 ≤ s0 →
      List.Chain' (· ≥ ·) (s0 :: temporalSmoothSeq a r s0 xs)
        ∧ List.Forall₂ (· ≥ ·) (temporalSmoothSeq a r s0 xs) xs := by
  intro xs
  induction xs with
  | nil => intro s0 _ _; exact ⟨List.chain'_singleton s0, List.Forall₂.nil⟩
  | cons x t ih =>
    intro s0 hchain h0
    have hx : x ≤ s0 := by simpa using h0
    obtain ⟨hb1, hb2⟩ := temporalSmoothBin_between_ge a r x s0 hr hr1 hx
    have hchain_t : List.Chain' (· > ·) t := hchain.tail
    have hhead : t.getD 0 (temporalSmoothBin a r x s0)
        ≤ temporalSmoothBin a r x s0 := by
      cases t with
      | nil => simp
      | cons y u =>
        have hxy : y < x := (List.chain'_cons.mp hchain).1
        simpa using le_trans (le_of_lt hxy) hb1
    obtain ⟨ihc, ihf⟩ := ih (temporalSmoothBin a r x s0) hchain_t hhead
    have hseq : temporalSmoothSeq a r s0 (x :: t)
        = temporalSmoothBin a r x s0
          :: temporalSmoothSeq a r (temporalSmoothBin a r x s0) t := rfl
    rw [hseq]
    exact ⟨List.chain'_cons.mpr ⟨hb2, ihc⟩, List.Forall₂.cons hb1 ihf⟩

lemma calculate_smoothing_alpha_bounds (expf : α → α)
    (hexp : ∀ x : α, x ≤ 0 → 0 ≤ expf x ∧ expf x ≤ 1)
    (timeMs updateRateHz : α) (hrate : 0 < updateRateHz) :
    0 ≤ calculate_smoothing_alpha expf timeMs updateRateHz
      ∧ calculate_smoothing_alpha expf timeMs updateRateHz ≤ 1 := by
  unfold calculate_smoothing_alpha
  split_ifs with h
  · norm_num
  · push_neg at h
    have harg : -(1 / updateRateHz) / (timeMs / 1000) ≤ 0 := by
      have hdiv : -(1 / updateRateHz) / (timeMs / 1000)
          = -((1 / updateRateHz) / (timeMs / 1000)) := by ring
      rw [hdiv]
      exact neg_nonpos_of_nonneg (by positivity)
    obtain ⟨he0, he1⟩ := hexp _ harg
    constructor <;> simp only [] <;> linarith

/-- C5: with attack/release alphas derived from the speed preset via
`alpha = 1 - exp(-framePeriod/timeConstant)` (so both lie in `[0,1]` for the
real exponential), the per-bin attack/release recurrence maps a strictly
increasing raw sequence whose first element is at least the initial smoothed
value to a non-decreasing output sequence that never exceeds the raw input,
and dually for a strictly decreasing sequence. -/
theorem temporal_smoothing_monotonicity (expf : α → α)
    (hexp : ∀ x : α, x ≤ 0 → 0 ≤ expf x ∧ expf x ≤ 1)
    (speed : SpectrumSpeed) (sampleRate : α) (hsr : 0 < sampleRate)
    (xs : List α) (s0 : α) :
    (List.Chain' (· < ·) xs → s0 ≤ xs.getD 0 s0 →
      List.Chain' (· ≤ ·) (s0 :: temporalSmoothSeq
        (calculate_smoothing_alpha expf (SpectrumSpeed.time_constants_ms speed).1
          (sampleRate / ((SPECTRUM_WINDOW_SIZE : α) * FFT_OVERLAP_FACTOR α)))
        (calculate_smoothing_alpha expf (SpectrumSpeed.time_constants_ms speed).2
          (sampleRate / ((SPECTRUM_WINDOW_SIZE : α) * FFT_OVERLAP_FACTOR α)))
        s0 xs)
      ∧ List.Forall₂ (· ≤ ·) (temporalSmoothSeq
        (calculate_smoothing_alpha expf (SpectrumSpeed.time_constants_ms speed).1
          (sampleRate / ((SPECTRUM_WINDOW_SIZE : α) * FFT_OVERLAP_FACTOR α)))
        (calculate_smoothing_alpha expf (SpectrumSpeed.time_constants_ms speed).2
          (sampleRate / ((SPECTRUM_WINDOW_SIZE : α) * FFT_OVERLAP_FACTOR α)))
        s0 xs) xs)
    ∧ (List.Chain' (· > ·) xs → xs.getD 0 s0 ≤ s0 →
      List.Chain' (· ≥ ·) (s0 :: temporalSmoothSeq
        (calculate_smoothing_alpha expf (SpectrumSpeed.time_constants_ms speed).1
          (sampleRate / ((SPECTRUM_WINDOW_SIZE : α) * FFT_OVERLAP_FACTOR α)))
        (calculate_smoothing_alpha expf (SpectrumSpeed.time_constants_ms speed).2
          (sampleRate / ((SPECTRUM_WINDOW_SIZE : α) * FFT_OVERLAP_FACTOR α)))
        s0 xs)
      ∧ List.Forall₂ (· ≥ ·) (temporalSmoothSeq
        (calculate_smoothing_alpha expf (SpectrumSpeed.time_constants_ms speed).1
          (sampleRate / ((SPECTRUM_WINDOW_SIZE : α) * FFT_OVERLAP_FACTOR α)))
        (calculate_smoothing_alpha expf (SpectrumSpeed.time_constants_ms speed).2
          (sampleRate / ((SPECTRUM_WINDOW_SIZE : α) * FFT_OVERLAP_FACTOR α)))
        s0 xs) xs) := by
  have hrate : (0 : α) < sampleRate / ((SPECTRUM_WINDOW_SIZE : α) * FFT_OVERLAP_FACTOR α) := by
    apply div_pos hsr
    norm_num [SPECTRUM_WINDOW_SIZE, FFT_OVERLAP_FACTOR]
  obtain ⟨ha0, ha1⟩ := calculate_smoothing_alpha_bounds expf hexp
    (SpectrumSpeed.time_constants_ms speed).1 _ hrate
  obtain ⟨hr0, hr1⟩ := calculate_smoothing_alpha_bounds expf hexp
    (SpectrumSpeed.time_constants_ms speed).2 _ hrate
  constructor
  · intro hchain h0
    exact temporalSmoothSeq_increasing _ _ ha0 ha1 hr0 hr1 xs s0 hchain h0
  · intro hchain h0
    exact temporalSmoothSeq_decreasing _ _ ha0 ha1 hr0 hr1 xs s0 hchain h0

/-- Witness for C5. -/
theorem temporal_smoothing_monotonicity_witness :
    (∀ x : ℚ, x ≤ 0 → 0 ≤ (fun _ : ℚ => (1 : ℚ) / 2) x
      ∧ (fun _ : ℚ => (1 : ℚ) / 2) x ≤ 1) ∧ (0 : ℚ) < 1024 ∧
    ((List.Chain' (· < ·) ([1, 2] : List ℚ) → (0 : ℚ) ≤ ([1, 2] : List ℚ).getD 0 0 →
      List.Chain' (· ≤ ·) ((0 : ℚ) :: temporalSmoothSeq
        (calculate_smoothing_alpha (fun _ : ℚ => (1 : ℚ) / 2)
          (SpectrumSpeed.time_constants_ms SpectrumSpeed.medium).1
          ((1024 : ℚ) / ((SPECTRUM_WINDOW_SIZE : ℚ) * FFT_OVERLAP_FACTOR ℚ)))
        (calculate_smoothing_alpha (fun _ : ℚ => (1 : ℚ) / 2)
          (SpectrumSpeed.time_constants_ms SpectrumSpeed.medium).2
          ((1024 : ℚ) / ((SPECTRUM_WINDOW_SIZE : ℚ) * FFT_OVERLAP_FACTOR ℚ)))
        0 [1, 2])
      ∧ List.Forall₂ (· ≤ ·) (temporalSmoothSeq
        (calculate_smoothing_alpha (fun _ : ℚ => (1 : ℚ) / 2)
          (SpectrumSpeed.time_constants_ms SpectrumSpeed.medium).1
          ((1024 : ℚ) / ((SPECTRUM_WINDOW_SIZE : ℚ) * FFT_OVERLAP_FACTOR ℚ)))
        (calculate_smoothing_alpha (fun _ : ℚ => (1 : ℚ) / 2)
          (SpectrumSpeed.time_constants_ms SpectrumSpeed.medium).2
          ((1024 : ℚ) / ((SPECTRUM_WINDOW_SIZE : ℚ) * FFT_OVERLAP_FACTOR ℚ)))
        0 [1, 2]) [1, 2])
    ∧ (List.Chain' (· > ·) ([1, 2] : List ℚ) → ([1, 2] : List ℚ).getD 0 0 ≤ (0 : ℚ) →
      List.Chain' (· ≥ ·) ((0 : ℚ) :: temporalSmoothSeq
        (calculate_smoothing_alpha (fun _ : ℚ => (1 : ℚ) / 2)
          (SpectrumSpeed.time_constants_ms SpectrumSpeed.medium).1
          ((1024 : ℚ) / ((SPECTRUM_WINDOW_SIZE : ℚ) * FFT_OVERLAP_FACTOR ℚ)))
        (calculate_smoothing_alpha (fun _ : ℚ => (1 : ℚ) / 2)
          (SpectrumSpeed.time_constants_ms SpectrumSpeed.medium).2
          ((1024 : ℚ) / ((SPECTRUM_WINDOW_SIZE : ℚ) * FFT_OVERLAP_FACTOR ℚ)))
        0 [1, 2])
      ∧ List.Forall₂ (· ≥ ·) (temporalSmoothSeq
        (calculate_smoothing_alpha (fun _ : ℚ => (1 : ℚ) / 2)
          (SpectrumSpeed.time_constants_ms SpectrumSpeed.medium).1
          ((1024 : ℚ) / ((SPECTRUM_WINDOW_SIZE : ℚ) * FFT_OVERLAP_FACTOR ℚ)))
        (calculate_smoothing_alpha (fun _ : ℚ => (1 : ℚ) / 2)
          (SpectrumSpeed.time_constants_ms SpectrumSpeed.medium).2
          ((1024 : ℚ) / ((SPECTRUM_WINDOW_SIZE : ℚ) * FFT_OVERLAP_FACTOR ℚ)))
        0 [1, 2]) [1, 2])) :=
  ⟨fun _ _ => ⟨by norm_num, by norm_num⟩, by norm_num,
    temporal_smoothing_monotonicity (fun _ : ℚ => (1 : ℚ) / 2)
      (fun _ _ => ⟨by norm_num, by norm_num⟩) SpectrumSpeed.medium 1024
      (by norm_num) [1, 2] 0⟩

/-! ## C6: FFT failure handling in `process` -/

lemma add_samples_previousSpectrum (ringLen : ℕ) :
    ∀ (xs : List α) (st : ProducerState α),
      (add_samples_to_ring_buffer ringLen st xs).previousSpectrum
        = st.previousSpectrum := by
  intro xs
  induction xs with
  | nil => intro st; rfl
  | cons x t ih => intro st; exact ih (pushSample ringLen st x)

lemma add_samples_spectrumResult (ringLen : ℕ) :
    ∀ (xs : List α) (st : ProducerState α),
      (add_samples_to_ring_buffer ringLen st xs).spectrumResult
        = st.spectrumResult := by
  intro xs
  induction xs with
  | nil => intro st; rfl
  | cons x t ih => intro st; exact ih (pushSample ringLen st x)

lemma add_samples_fftFailureCount (ringLen : ℕ) :
    ∀ (xs : List α) (st : ProducerState α),
      (add_samples_to_ring_buffer ringLen st xs).fftFailureCount
        = st.fftFailureCount := by
  intro xs
  induction xs with
  | nil => intro st; rfl
  | cons x t ih => intro st; exact ih (pushSample ringLen st x)

/-- C6: when the hop threshold is reached (an analysis pass runs) and the FFT
call on the windowed analysis buffer fails, `process` publishes nothing
(the triple buffer is not written, so the previously published frame remains
the latest readable value), leaves the smoothing state `previous_spectrum`
and `spectrum_result` untouched, increments the failure counter by exactly
one, and returns a well-formed state (with the hop counter reset) for the
next callback. -/
theorem fft_failure_skips_frame (env : PipelineEnv α) (st : ProducerState α)
    (samples : List α) (sampleRate : α)
    (hthresh : (add_samples_to_ring_buffer (SPECTRUM_WINDOW_SIZE * 2) st
        samples).samplesSinceFft ≥ SPECTRUM_WINDOW_SIZE / 2)
    (hfail : env.fft (apply_window
        (copy_from_ring_buffer SPECTRUM_WINDOW_SIZE (SPECTRUM_WINDOW_SIZE * 2)
          (add_samples_to_ring_buffer (SPECTRUM_WINDOW_SIZE * 2) st samples).ringBuffer
          (add_samples_to_ring_buffer (SPECTRUM_WINDOW_SIZE * 2) st samples).ringBufferPos)
        env.windows.midFreq.coefficients) = .error ()) :
    (process env st samples sampleRate).2 = none
    ∧ (process env st samples sampleRate).1.previousSpectrum = st.previousSpectrum
    ∧ (process env st samples sampleRate).1.spectrumResult = st.spectrumResult
    ∧ (process env st samples sampleRate).1.fftFailureCount = st.fftFailureCount + 1
    ∧ (process env st samples sampleRate).1.samplesSinceFft = 0 := by
  unfold process
  rw [if_pos hthresh]
  simp only
  rw [hfail]
  refine ⟨rfl, ?_, ?_, ?_, rfl⟩
  · exact add_samples_previousSpectrum (SPECTRUM_WINDOW_SIZE * 2) samples st
  · exact add_samples_spectrumResult (SPECTRUM_WINDOW_SIZE * 2) samples st
  · show (add_samples_to_ring_buffer (SPECTRUM_WINDOW_SIZE * 2) st
        samples).fftFailureCount + 1 = st.fftFailureCount + 1
    rw [add_samples_fftFailureCount (SPECTRUM_WINDOW_SIZE * 2) samples st]

/-- Witness for C6: a state that has already accumulated a full hop, an
empty callback block, and an FFT stub that always fails. -/
theorem fft_failure_skips_frame_witness :
    ((add_samples_to_ring_buffer (SPECTRUM_WINDOW_SIZE * 2)
        (⟨fun _ => 0, 0, 1024, fun _ => 0, fun _ => -120, fun _ => -120, 5⟩ :
          ProducerState ℚ) []).samplesSinceFft ≥ SPECTRUM_WINDOW_SIZE / 2) ∧
    ((process
        (⟨id, id, id, id, fun _ => .error (),
          ⟨⟨fun _ => 1, 1⟩, ⟨fun _ => 1, 1⟩, ⟨fun _ => 1, 1⟩⟩,
          AdaptiveWindowStrategy.default, .medium⟩ : PipelineEnv ℚ)
        (⟨fun _ => 0, 0, 1024, fun _ => 0, fun _ => -120, fun _ => -120, 5⟩ :
          ProducerState ℚ) [] 48000).2 = none
    ∧ (process
        (⟨id, id, id, id, fun _ => .error (),
          ⟨⟨fun _ => 1, 1⟩, ⟨fun _ => 1, 1⟩, ⟨fun _ => 1, 1⟩⟩,
          AdaptiveWindowStrategy.default, .medium⟩ : PipelineEnv ℚ)
        (⟨fun _ => 0, 0, 1024, fun _ => 0, fun _ => -120, fun _ => -120, 5⟩ :
          ProducerState ℚ) [] 48000).1.previousSpectrum
      = (⟨fun _ => 0, 0, 1024, fun _ => 0, fun _ => -120, fun _ => -120, 5⟩ :
          ProducerState ℚ).previousSpectrum
    ∧ (process
        (⟨id, id, id, id, fun _ => .error (),
          ⟨⟨fun _ => 1, 1⟩, ⟨fun _ => 1, 1⟩, ⟨fun _ => 1, 1⟩⟩,
          AdaptiveWindowStrategy.default, .medium⟩ : PipelineEnv ℚ)
        (⟨fun _ => 0, 0, 1024, fun _ => 0, fun _ => -120, fun _ => -120, 5⟩ :
          ProducerState ℚ) [] 48000).1.spectrumResult
      = (⟨fun _ => 0, 0, 1024, fun _ => 0, fun _ => -120, fun _ => -120, 5⟩ :
          ProducerState ℚ).spectrumResult
    ∧ (process
        (⟨id, id, id, id, fun _ => .error (),
          ⟨⟨fun _ => 1, 1⟩, ⟨fun _ => 1, 1⟩, ⟨fun _ => 1, 1⟩⟩,
          AdaptiveWindowStrategy.default, .medium⟩ : PipelineEnv ℚ)
        (⟨fun _ => 0, 0, 1024, fun _ => 0, fun _ => -120, fun _ => -120, 5⟩ :
          ProducerState ℚ) [] 48000).1.fftFailureCount
      = (⟨fun _ => 0, 0, 1024, fun _ => 0, fun _ => -120, fun _ => -120, 5⟩ :
          ProducerState ℚ).fftFailureCount + 1
    ∧ (process
        (⟨id, id, id, id, fun _ => .error (),
          ⟨⟨fun _ => 1, 1⟩, ⟨fun _ => 1, 1⟩, ⟨fun _ => 1, 1⟩⟩,
          AdaptiveWindowStrategy.default, .medium⟩ : PipelineEnv ℚ)
        (⟨fun _ => 0, 0, 1024, fun _ => 0, fun _ => -120, fun _ => -120, 5⟩ :
          ProducerState ℚ) [] 48000).1.samplesSinceFft = 0) :=
  ⟨by decide,
    fft_failure_skips_frame
      (⟨id, id, id, id, fun _ => .error (),
        ⟨⟨fun _ => 1, 1⟩, ⟨fun _ => 1, 1⟩, ⟨fun _ => 1, 1⟩⟩,
        AdaptiveWindowStrategy.default, .medium⟩ : PipelineEnv ℚ)
      (⟨fun _ => 0, 0, 1024, fun _ => 0, fun _ => -120, fun _ => -120, 5⟩ :
        ProducerState ℚ) [] 48000 (by decide) rfl⟩

/-! ## Floor-invariant helpers and C2 -/

lemma compute_magnitude_spectrum_ge (sqrtf log10f log2f : α → α)
    (bins : ℕ → α × α) (windowSize : ℕ) (g sr : α) (k : ℕ) :
    SPECTRUM_FLOOR_DB α
      ≤ compute_magnitude_spectrum sqrtf log10f log2f bins windowSize g sr k := by
  unfold compute_magnitude_spectrum magnitudeDbBin
  exact le_max_right _ _

lemma compute_spectrum_with_window_ge (env : PipelineEnv α)
    (audioSamples windowCoeffs : ℕ → α) (g sr : α) (k : ℕ) :
    SPECTRUM_FLOOR_DB α
      ≤ compute_spectrum_with_window env audioSamples windowCoeffs g sr k := by
  unfold compute_spectrum_with_window
  exact compute_magnitude_spectrum_ge _ _ _ _ _ _ _ _

lemma blend_ge_floor (s : AdaptiveWindowStrategy α)
    (hlm : s.lowMidCrossfade.1 < s.lowMidCrossfade.2)
    (hmh : s.midHighCrossfade.1 < s.midHighCrossfade.2)
    (low mid high : ℕ → α) (sampleRate : α) (windowSize binIdx : ℕ)
    (h1 : SPECTRUM_FLOOR_DB α ≤ low binIdx)
    (h2 : SPECTRUM_FLOOR_DB α ≤ mid binIdx)
    (h3 : SPECTRUM_FLOOR_DB α ≤ high binIdx) :
    SPECTRUM_FLOOR_DB α
      ≤ blend_frequency_spectrums s low mid high sampleRate windowSize binIdx :=
  le_trans (le_min h1 (le_min h2 h3))
    (blend_frequency_spectrums_bounds s hlm hmh low mid high sampleRate
      windowSize binIdx).1

lemma compute_adaptive_ge (env : PipelineEnv α)
    (hlm : env.strategy.lowMidCrossfade.1 < env.strategy.lowMidCrossfade.2)
    (hmh : env.strategy.midHighCrossfade.1 < env.strategy.midHighCrossfade.2)
    (timeDomainBuffer : ℕ → α) (sampleRate : α) (k : ℕ) :
    SPECTRUM_FLOOR_DB α
      ≤ compute_adaptive_magnitude_spectrum env timeDomainBuffer sampleRate k := by
  unfold compute_adaptive_magnitude_spectrum
  exact blend_ge_floor env.strategy hlm hmh _ _ _ _ _ _
    (compute_spectrum_with_window_ge _ _ _ _ _ _)
    (compute_spectrum_with_window_ge _ _ _ _ _ _)
    (compute_spectrum_with_window_ge _ _ _ _ _ _)

lemma temporalSmoothBin_ge_floor (a r cur prev c : α)
    (ha0 : 0 ≤ a) (ha1 : a ≤ 1) (hr0 : 0 ≤ r) (hr1 : r ≤ 1)
    (hc : c ≤ cur) (hp : c ≤ prev) :
    c ≤ temporalSmoothBin a r cur prev := by
  unfold temporalSmoothBin
  split_ifs with h
  · nlinarith
  · nlinarith

lemma weighted_avg_ge (S : Finset ℕ) (f w : ℕ → α) (c : α)
    (hw : ∀ j ∈ S, 0 ≤ w j) (hf : ∀ j ∈ S, c ≤ f j)
    (hpos : 0 < ∑ j in S, w j) :
    c ≤ (∑ j in S, f j * w j) / (∑ j in S, w j) := by
  rw [le_div_iff hpos]
  calc c * ∑ j in S, w j = ∑ j in S, c * w j := by rw [Finset.mul_sum]
  _ ≤ ∑ j in S, f j * w j := Finset.sum_le_sum
      (fun j hj => mul_le_mul_of_nonneg_right (hf j hj) (hw j hj))

lemma gaussianSmoothAt_ge (expf : α → α)
    (hexp0 : ∀ x : α, x ≤ 0 → 0 ≤ expf x)
    (spectrum : ℕ → α) (len i ks : ℕ) (sigma c : α) (hsig : 0 < sigma)
    (hsp : ∀ j, c ≤ spectrum j) :
    c ≤ gaussianSmoothAt expf spectrum len i ks sigma := by
  unfold gaussianSmoothAt
  dsimp only
  split_ifs with hpos
  · refine weighted_avg_ge _ _ _ _ (fun j _ => ?_) (fun j _ => hsp j) hpos
    apply hexp0
    have hd : (0 : α) ≤ absDistance j i := by
      unfold absDistance
      exact Nat.cast_nonneg _
    rw [neg_div]
    exact neg_nonpos_of_nonneg (div_nonneg (mul_nonneg hd hd) hsig.le)
  · exact hsp i

lemma fivePointSmoothAt_ge (spectrum : ℕ → α) (len i : ℕ) (c : α)
    (hsp : ∀ j, c ≤ spectrum j) :
    c ≤ fivePointSmoothAt spectrum len i := by
  unfold fivePointSmoothAt SMOOTH_WEIGHT_OUTER SMOOTH_WEIGHT_INNER SMOOTH_WEIGHT_CENTER
  dsimp only
  split_ifs with h
  · linarith [hsp (i - 2), hsp (i - 1), hsp i, hsp (i + 1), hsp (i + 2)]
  · linarith [hsp (i - 2), hsp (i - 1), hsp i, hsp (i + 1)]

lemma freq_smoothing_ge (expf : α → α)
    (hexp0 : ∀ x : α, x ≤ 0 → 0 ≤ expf x)
    (spectrum : ℕ → α) (sampleRate : α) (len : ℕ) (c : α)
    (hsp : ∀ j, c ≤ spectrum j) (i : ℕ) :
    c ≤ apply_frequency_dependent_smoothing expf spectrum sampleRate len i := by
  unfold apply_frequency_dependent_smoothing
  dsimp only
  split_ifs with h1 h2 h3 h4
  · exact gaussianSmoothAt_ge expf hexp0 spectrum len i _ _ c
      (by norm_num [GAUSSIAN_SIGMA_STRONG]) hsp
  · exact gaussianSmoothAt_ge expf hexp0 spectrum len i _ _ c
      (by norm_num [GAUSSIAN_SIGMA_MODERATE]) hsp
  · exact fivePointSmoothAt_ge spectrum len i c hsp
  · exact hsp i
  · exact hsp i

lemma apply_spectrum_smoothing_ge (expf : α → α)
    (hexp : ∀ x : α, x ≤ 0 → 0 ≤ expf x ∧ expf x ≤ 1)
    (cur prev : ℕ → α) (speed : SpectrumSpeed) (sampleRate : α)
    (hsr : 0 < sampleRate) (len : ℕ)
    (hcur : ∀ i, SPECTRUM_FLOOR_DB α ≤ cur i)
    (hprev : ∀ i, SPECTRUM_FLOOR_DB α ≤ prev i) (i : ℕ) :
    SPECTRUM_FLOOR_DB α
      ≤ apply_spectrum_smoothing expf cur prev speed sampleRate len i := by
  have hrate : (0 : α)
      < sampleRate / ((SPECTRUM_WINDOW_SIZE : α) * FFT_OVERLAP_FACTOR α) := by
    apply div_pos hsr
    norm_num [SPECTRUM_WINDOW_SIZE, FFT_OVERLAP_FACTOR]
  obtain ⟨ha0, ha1⟩ := calculate_smoothing_alpha_bounds expf hexp
    (SpectrumSpeed.time_constants_ms speed).1 _ hrate
  obtain ⟨hr0, hr1⟩ := calculate_smoothing_alpha_bounds expf hexp
    (SpectrumSpeed.time_constants_ms speed).2 _ hrate
  unfold apply_spectrum_smoothing
  exact freq_smoothing_ge expf (fun x hx => (hexp x hx).1) _ sampleRate len _
    (fun j => temporalSmoothBin_ge_floor _ _ _ _ _ ha0 ha1 hr0 hr1
      (hcur j) (hprev j)) i

lemma process_publish_ge (env : PipelineEnv α)
    (hexp : ∀ x : α, x ≤ 0 → 0 ≤ env.expf x ∧ env.expf x ≤ 1)
    (hlm : env.strategy.lowMidCrossfade.1 < env.strategy.lowMidCrossfade.2)
    (hmh : env.strategy.midHighCrossfade.1 < env.strategy.midHighCrossfade.2)
    (st : ProducerState α)
    (hprev : ∀ i, SPECTRUM_FLOOR_DB α ≤ st.previousSpectrum i)
    (samples : List α) (sampleRate : α) (hsr : 0 < sampleRate) :
    (∀ frame, (process env st samples sampleRate).2 = some frame →
      ∀ i, SPECTRUM_FLOOR_DB α ≤ frame i)
    ∧ (∀ i, SPECTRUM_FLOOR_DB α
        ≤ (process env st samples sampleRate).1.previousSpectrum i) := by
  have hadd : ∀ i, SPECTRUM_FLOOR_DB α
      ≤ (add_samples_to_ring_buffer (SPECTRUM_WINDOW_SIZE * 2) st
          samples).previousSpectrum i := by
    intro i
    rw [add_samples_previousSpectrum]
    exact hprev i
  unfold process
  dsimp only
  split_ifs with hth
  · rcases hfft : env.fft (apply_window
        (copy_from_ring_buffer SPECTRUM_WINDOW_SIZE (SPECTRUM_WINDOW_SIZE * 2)
          (add_samples_to_ring_buffer (SPECTRUM_WINDOW_SIZE * 2) st samples).ringBuffer
          (add_samples_to_ring_buffer (SPECTRUM_WINDOW_SIZE * 2) st samples).ringBufferPos)
        env.windows.midFreq.coefficients) with e | b
    · exact ⟨fun frame hf => absurd hf (by simp), fun i => hadd i⟩
    · have hsm : ∀ i, SPECTRUM_FLOOR_DB α ≤ apply_spectrum_smoothing env.expf
          (compute_adaptive_magnitude_spectrum env
            (apply_window
              (copy_from_ring_buffer SPECTRUM_WINDOW_SIZE (SPECTRUM_WINDOW_SIZE * 2)
                (add_samples_to_ring_buffer (SPECTRUM_WINDOW_SIZE * 2) st
                  samples).ringBuffer
                (add_samples_to_ring_buffer (SPECTRUM_WINDOW_SIZE * 2) st
                  samples).ringBufferPos)
              env.windows.midFreq.coefficients) sampleRate)
          (add_samples_to_ring_buffer (SPECTRUM_WINDOW_SIZE * 2) st
            samples).previousSpectrum
          env.speed sampleRate SPECTRUM_BINS i := by
        intro i
        exact apply_spectrum_smoothing_ge env.expf hexp _ _ env.speed sampleRate
          hsr SPECTRUM_BINS
          (fun j => compute_adaptive_ge env hlm hmh _ sampleRate j)
          hadd i
      constructor
      · intro frame hf i
        have hfeq : apply_spectrum_smoothing env.expf
            (compute_adaptive_magnitude_spectrum env
              (apply_window
                (copy_from_ring_buffer SPECTRUM_WINDOW_SIZE (SPECTRUM_WINDOW_SIZE * 2)
                  (add_samples_to_ring_buffer (SPECTRUM_WINDOW_SIZE * 2) st
                    samples).ringBuffer
                  (add_samples_to_ring_buffer (SPECTRUM_WINDOW_SIZE * 2) st
                    samples).ringBufferPos)
                env.windows.midFreq.coefficients) sampleRate)
            (add_samples_to_ring_buffer (SPECTRUM_WINDOW_SIZE * 2) st
              samples).previousSpectrum
            env.speed sampleRate SPECTRUM_BINS = frame := by
          exact Option.some.inj hf
        rw [← hfeq]
        exact hsm i
      · intro i
        exact hsm i
  · exact ⟨fun frame hf => absurd hf (by simp), fun i => hadd i⟩

/-- C2: every frame the spectrum pipeline publishes to the triple buffer —
after magnitude conversion, three-window blending, temporal smoothing and
frequency-neighbour smoothing — is bounded below by the −120 dB floor in every
bin, for every input block sequence and every sample rate > 0.  (In this
real-valued model all arithmetic is total, so no NaN or −∞ can arise; the
floor bound is the surviving content of the float claim.) -/
theorem published_spectrum_frames_ge_floor (env : PipelineEnv α)
    (hexp : ∀ x : α, x ≤ 0 → 0 ≤ env.expf x ∧ env.expf x ≤ 1)
    (hlm : env.strategy.lowMidCrossfade.1 < env.strategy.lowMidCrossfade.2)
    (hmh : env.strategy.midHighCrossfade.1 < env.strategy.midHighCrossfade.2)
    (sampleRate : α) (hsr : 0 < sampleRate)
    (st : ProducerState α)
    (hprev : ∀ i, SPECTRUM_FLOOR_DB α ≤ st.previousSpectrum i)
    (blocks : List (List α)) :
    ∀ frame ∈ processTrace env st blocks sampleRate, ∀ i,
      SPECTRUM_FLOOR_DB α ≤ frame i := by
  induction blocks generalizing st with
  | nil =>
    intro frame hf
    simp [processTrace] at hf
  | cons b bs ih =>
    intro frame hf i
    obtain ⟨hpub, hinv⟩ := process_publish_ge env hexp hlm hmh st hprev b
      sampleRate hsr
    unfold processTrace at hf
    rcases hp : (process env st b sampleRate).2 with _ | fr
    · rw [show (process env st b sampleRate) =
          ((process env st b sampleRate).1, (process env st b sampleRate).2)
        from rfl, hp] at hf
      dsimp only at hf
      exact ih (process env st b sampleRate).1 hinv frame hf i
    · rw [show (process env st b sampleRate) =
          ((process env st b sampleRate).1, (process env st b sampleRate).2)
        from rfl, hp] at hf
      dsimp only at hf
      rcases List.mem_cons.mp hf with hfr | hmem
      · subst hfr
        exact hpub frame hp i
      · exact ih (process env st b sampleRate).1 hinv frame hmem i

/-- Witness for C2. -/
theorem published_spectrum_frames_ge_floor_witness :
    ((∀ x : ℚ, x ≤ 0 → 0 ≤ (1 : ℚ) / 2 ∧ (1 : ℚ) / 2 ≤ 1)
      ∧ (480 : ℚ) < 520 ∧ (8000 : ℚ) < 9000 ∧ (0 : ℚ) < 48000
      ∧ (∀ i : ℕ, SPECTRUM_FLOOR_DB ℚ ≤ (fun _ : ℕ => (-120 : ℚ)) i)) ∧
    (∀ frame ∈ processTrace
      (⟨id, id, id, fun _ => (1 : ℚ) / 2, fun _ => .ok (fun _ => (0, 0)),
        ⟨⟨fun _ => 1, 1⟩, ⟨fun _ => 1, 1⟩, ⟨fun _ => 1, 1⟩⟩,
        AdaptiveWindowStrategy.default, .medium⟩ : PipelineEnv ℚ)
      (⟨fun _ => 0, 0, 1024, fun _ => 0, fun _ => -120, fun _ => -120, 0⟩ :
        ProducerState ℚ)
      [[1]] 48000, ∀ i, SPECTRUM_FLOOR_DB ℚ ≤ frame i) :=
  ⟨⟨fun _ _ => ⟨by norm_num, by norm_num⟩,
      by norm_num, by norm_num, by norm_num, fun i => le_refl _⟩,
    published_spectrum_frames_ge_floor
      (⟨id, id, id, fun _ => (1 : ℚ) / 2, fun _ => .ok (fun _ => (0, 0)),
        ⟨⟨fun _ => 1, 1⟩, ⟨fun _ => 1, 1⟩, ⟨fun _ => 1, 1⟩⟩,
        AdaptiveWindowStrategy.default, .medium⟩ : PipelineEnv ℚ)
      (fun _ _ => ⟨by norm_num, by norm_num⟩)
      (by norm_num [AdaptiveWindowStrategy.default])
      (by norm_num [AdaptiveWindowStrategy.default])
      48000 (by norm_num)
      (⟨fun _ => 0, 0, 1024, fun _ => 0, fun _ => -120, fun _ => -120, 0⟩ :
        ProducerState ℚ)
      (fun i => le_refl _) [[1]]⟩

/-! ## C1: per-bin magnitude/dB formula -/

/-- C1 counterexample: the claim applies the tilt whenever `freq > 0`, but the
code skips it when `freq < MIN_FREQ_THRESHOLD = 0.001`.  At windowSize 2048,
sample rate 1, coherent gain 1 and bin 1 (`freq = 1/2048 ∈ (0, 0.001)`), with
the bin value `(1024, 0)` the code yields 0 dB while the claimed formula
yields `4.5·log2(1/2048000) < 0` dB. -/
theorem magnitude_db_claimed_formula_counterexample :
    compute_magnitude_spectrum Real.sqrt (Real.logb 10) (Real.logb 2)
        (fun _ => ((1024 : ℝ), 0)) 2048 1 1 1
      ≠ magnitudeDbBinClaimed Real.sqrt (Real.logb 10) (Real.logb 2) 2048 1 1 1
        ((1024 : ℝ), 0) := by
  have hnorm : complexNorm Real.sqrt ((1024 : ℝ), 0) = 1024 := by
    unfold complexNorm
    rw [show ((1024 : ℝ), (0 : ℝ)).1 * ((1024 : ℝ), (0 : ℝ)).1
        + ((1024 : ℝ), (0 : ℝ)).2 * ((1024 : ℝ), (0 : ℝ)).2 = (1024 : ℝ) ^ 2 by norm_num]
    exact Real.sqrt_sq (by norm_num)
  have hamp : complexNorm Real.sqrt ((1024 : ℝ), 0) * (2 / ((2048 : ℕ) : ℝ)) / 1 = 1 := by
    rw [hnorm]; norm_num
  have hLHS : compute_magnitude_spectrum Real.sqrt (Real.logb 10) (Real.logb 2)
      (fun _ => ((1024 : ℝ), 0)) 2048 1 1 1 = 0 := by
    unfold compute_magnitude_spectrum magnitudeDbBin apply_tilt_compensation
    simp only [MIN_FREQ_THRESHOLD, TILT_REFERENCE_FREQ_HZ, SPECTRUM_TILT_DB_PER_OCT,
      MIN_AMPLITUDE_THRESHOLD, DB_CONVERSION_FACTOR, SPECTRUM_FLOOR_DB]
    rw [if_neg (by norm_num : ¬ (1 : ℕ) = 0)]
    rw [hamp]
    rw [if_pos (by norm_num : (1 : ℝ) > 1 / 100000000)]
    rw [Real.logb_one, mul_zero]
    rw [if_pos (by push_cast; norm_num : (((1 : ℕ) : ℝ) * 1) / ((2048 : ℕ) : ℝ) < 1 / 1000)]
    exact max_eq_left (by norm_num)
  have hRHS : magnitudeDbBinClaimed Real.sqrt (Real.logb 10) (Real.logb 2) 2048 1 1 1
      ((1024 : ℝ), 0) < 0 := by
    unfold magnitudeDbBinClaimed
    rw [if_neg (by norm_num : ¬ (1 : ℕ) = 0)]
    rw [hamp]
    dsimp only
    rw [if_pos (by norm_num : (1 : ℝ) > 1 / 100000000)]
    rw [Real.logb_one, mul_zero]
    rw [if_pos (by push_cast; norm_num : (0 : ℝ) < ((1 : ℕ) : ℝ) * 1 / ((2048 : ℕ) : ℝ))]
    apply max_lt ?_ (by norm_num)
    have hlt : Real.logb 2 (((1 : ℕ) : ℝ) * 1 / ((2048 : ℕ) : ℝ) / 1000) < 0 := by
      apply Real.logb_neg (by norm_num) (by push_cast; norm_num) (by push_cast; norm_num)
    nlinarith
  intro h
  rw [hLHS] at h
  rw [← h] at hRHS
  exact lt_irrefl 0 hRHS

/-- C1 amended: the per-bin conversion computes the claim's formula with the
tilt guard `freq ≥ 0.001` (the code's `MIN_FREQ_THRESHOLD`) substituted for
the claim's `freq > 0`. -/
theorem magnitude_db_formula_amended (sqrtf log10f log2f : α → α)
    (frequencyBins : ℕ → α × α) (windowSize : ℕ) (hN : 0 < windowSize)
    (coherentGain sampleRate : α) (hg : 0 < coherentGain)
    (hsr : 0 < sampleRate) (k : ℕ) :
    compute_magnitude_spectrum sqrtf log10f log2f frequencyBins windowSize
        coherentGain sampleRate k
      = magnitudeDbBinAmended sqrtf log10f log2f windowSize coherentGain
        sampleRate k (frequencyBins k) := by
  unfold compute_magnitude_spectrum magnitudeDbBin magnitudeDbBinAmended
    apply_tilt_compensation
  simp only [MIN_FREQ_THRESHOLD, TILT_REFERENCE_FREQ_HZ, SPECTRUM_TILT_DB_PER_OCT,
    MIN_AMPLITUDE_THRESHOLD, DB_CONVERSION_FACTOR, SPECTRUM_FLOOR_DB]
  split_ifs with h1 h2 h3 <;> first | rfl | linarith

/-- Witness for the amended C1. -/
theorem magnitude_db_formula_amended_witness :
    ((0 : ℕ) < 2 ∧ (0 : ℚ) < 1 ∧ (0 : ℚ) < 1) ∧
    compute_magnitude_spectrum (id : ℚ → ℚ) id id (fun _ => (1, 0)) 2 1 1 1
      = magnitudeDbBinAmended (id : ℚ → ℚ) id id 2 1 1 1 ((1 : ℚ), 0) :=
  ⟨⟨by decide, by norm_num, by norm_num⟩,
    magnitude_db_formula_amended (id : ℚ → ℚ) id id (fun _ => (1, 0)) 2
      (by decide) 1 1 (by norm_num) (by norm_num) 1⟩

/-! ## C3: double windowing in the analysis pass -/

/-- C3 divergence witness: with the real cosine-generated default windows
(Hann/Hann/Blackman with their coherent gains), real `sqrt`/`logb`, a sample
rate of 2,048,000 Hz (bin 1 = 1000 Hz, inside the pure-mid blend region), the
all-ones analysis window, and an FFT stub that reports sample 512 of its input
buffer in every bin, the spectrum produced by the analysis pass of `process`
differs at bin 1 from the claim's version in which the three per-band spectra
are computed from the raw (un-windowed) analysis samples: the code windows the
buffer with the mid (Hann) window once in `apply_window` and then again per
band, so the FFT input at index 512 is 1/4 instead of 1/2. -/
theorem analysis_pass_double_windowing :
    analysisPassSpectrum
      (⟨Real.sqrt, Real.logb 10, Real.logb 2, Real.exp,
        fun xs => .ok (fun _ => (xs 512, 0)),
        ⟨⟨hannCoeff Real.cos Real.pi 2048,
            WindowType.coherent_gain (generate_hann_window Real.cos Real.pi 2048)⟩,
          ⟨hannCoeff Real.cos Real.pi 2048,
            WindowType.coherent_gain (generate_hann_window Real.cos Real.pi 2048)⟩,
          ⟨blackmanCoeff Real.cos Real.pi 2048,
            WindowType.coherent_gain (generate_blackman_window Real.cos Real.pi 2048)⟩⟩,
        AdaptiveWindowStrategy.default, .medium⟩ : PipelineEnv ℝ)
      (fun _ => 1) 2048000 1
    ≠ analysisPassSpectrumClaimed
      (⟨Real.sqrt, Real.logb 10, Real.logb 2, Real.exp,
        fun xs => .ok (fun _ => (xs 512, 0)),
        ⟨⟨hannCoeff Real.cos Real.pi 2048,
            WindowType.coherent_gain (generate_hann_window Real.cos Real.pi 2048)⟩,
          ⟨hannCoeff Real.cos Real.pi 2048,
            WindowType.coherent_gain (generate_hann_window Real.cos Real.pi 2048)⟩,
          ⟨blackmanCoeff Real.cos Real.pi 2048,
            WindowType.coherent_gain (generate_blackman_window Real.cos Real.pi 2048)⟩⟩,
        AdaptiveWindowStrategy.default, .medium⟩ : PipelineEnv ℝ)
      (fun _ => 1) 2048000 1 := by
  have hc512 : hannCoeff Real.cos Real.pi 2048 512 = 1 / 2 := by
    unfold hannCoeff
    rw [show 2 * Real.pi * (((512 : ℕ) : ℝ) / ((2048 : ℕ) : ℝ)) = Real.pi / 2 by
      push_cast; ring]
    rw [Real.cos_pi_div_two]
    norm_num
  set g := WindowType.coherent_gain (generate_hann_window Real.cos Real.pi 2048) with hgdef
  unfold analysisPassSpectrum analysisPassSpectrumClaimed compute_adaptive_magnitude_spectrum
    blend_frequency_spectrums
  dsimp only
  norm_num [AdaptiveWindowStrategy.default, SPECTRUM_WINDOW_SIZE]
  unfold compute_spectrum_with_window compute_magnitude_spectrum magnitudeDbBin
    apply_tilt_compensation complexNorm apply_window
  dsimp only
  rw [hc512]
  have hs1 : Real.sqrt ((1:ℝ) * (1 / 2) * (1 / 2) * (1 * (1 / 2) * (1 / 2)) + 0 * 0)
      = 1 / 4 := by
    rw [show (1:ℝ) * (1 / 2) * (1 / 2) * (1 * (1 / 2) * (1 / 2)) + 0 * 0
      = (1 / 4 : ℝ) ^ 2 by norm_num]
    exact Real.sqrt_sq (by norm_num)
  have hs2 : Real.sqrt ((1:ℝ) * (1 / 2) * (1 * (1 / 2)) + 0 * 0) = 1 / 2 := by
    rw [show (1:ℝ) * (1 / 2) * (1 * (1 / 2)) + 0 * 0 = (1 / 2 : ℝ) ^ 2 by norm_num]
    exact Real.sqrt_sq (by norm_num)
  rw [hs1, hs2]
  simp only [MIN_FREQ_THRESHOLD, MIN_AMPLITUDE_THRESHOLD, DB_CONVERSION_FACTOR,
    SPECTRUM_FLOOR_DB, SPECTRUM_TILT_DB_PER_OCT, TILT_REFERENCE_FREQ_HZ,
    SPECTRUM_WINDOW_SIZE]
  rw [if_neg (show ¬ (1 : ℕ) = 0 by norm_num)]
  rw [if_neg (show ¬ (((1:ℕ):ℝ) * 2048000 / ((2048:ℕ):ℝ) < 1 / 1000) by
    push_cast; norm_num)]
  rw [if_neg (show ¬ (((1:ℕ):ℝ) * 2048000 / ((2048:ℕ):ℝ) < 1 / 1000) by
    push_cast; norm_num)]
  have hmem : hannCoeff Real.cos Real.pi 2048 512
      ∈ generate_hann_window Real.cos Real.pi 2048 := by
    unfold generate_hann_window
    exact List.mem_map_of_mem _ (List.mem_range.mpr (by norm_num))
  have hnonneg : ∀ x ∈ generate_hann_window Real.cos Real.pi 2048, (0:ℝ) ≤ x := by
    intro x hx
    unfold generate_hann_window at hx
    obtain ⟨i, hi, rfl⟩ := List.mem_map.mp hx
    unfold hannCoeff
    nlinarith [Real.cos_le_one (2 * Real.pi * ((i:ℝ) / ((2048:ℕ):ℝ)))]
  have hle1 : ∀ x ∈ generate_hann_window Real.cos Real.pi 2048, x ≤ (1:ℝ) := by
    intro x hx
    unfold generate_hann_window at hx
    obtain ⟨i, hi, rfl⟩ := List.mem_map.mp hx
    unfold hannCoeff
    nlinarith [Real.neg_one_le_cos (2 * Real.pi * ((i:ℝ) / ((2048:ℕ):ℝ)))]
  have hlen : (generate_hann_window Real.cos Real.pi 2048).length = 2048 := by
    unfold generate_hann_window
    simp
  have hsum_ub : (generate_hann_window Real.cos Real.pi 2048).sum ≤ 2048 := by
    have h := List.sum_le_card_nsmul (generate_hann_window Real.cos Real.pi 2048) 1 hle1
    rw [hlen] at h
    simpa using h
  have hsum_lb : (1:ℝ)/2 ≤ (generate_hann_window Real.cos Real.pi 2048).sum := by
    have h := List.single_le_sum hnonneg _ hmem
    rwa [hc512] at h
  have hg_lb : (1:ℝ)/4096 ≤ g := by
    rw [hgdef]
    unfold WindowType.coherent_gain
    rw [hlen]
    rw [le_div_iff (by push_cast; norm_num : (0:ℝ) < ((2048:ℕ):ℝ))]
    push_cast
    linarith
  have hg_ub : g ≤ 1 := by
    rw [hgdef]
    unfold WindowType.coherent_gain
    rw [hlen]
    rw [div_le_one (by push_cast; norm_num : (0:ℝ) < ((2048:ℕ):ℝ))]
    push_cast
    linarith
  have hg_pos : (0:ℝ) < g := lt_of_lt_of_le (by norm_num) hg_lb
  rw [if_pos (show (1:ℝ) / 4 * (2 / ((2048:ℕ):ℝ)) / g > 1 / 100000000 by
    rw [gt_iff_lt, lt_div_iff hg_pos]
    push_cast
    linarith)]
  rw [if_pos (show (1:ℝ) / 2 * (2 / ((2048:ℕ):ℝ)) / g > 1 / 100000000 by
    rw [gt_iff_lt, lt_div_iff hg_pos]
    push_cast
    linarith)]
  rw [show ((1:ℕ):ℝ) * 2048000 / ((2048:ℕ):ℝ) / 1000 = 1 by push_cast; norm_num]
  rw [Real.logb_one, mul_zero, add_zero, add_zero]
  have hlt : 20 * Real.logb 10 ((1:ℝ) / 4 * (2 / ((2048:ℕ):ℝ)) / g)
      < 20 * Real.logb 10 ((1:ℝ) / 2 * (2 / ((2048:ℕ):ℝ)) / g) := by
    have hmono := Real.logb_lt_logb (show (1:ℝ) < 10 by norm_num)
      (show (0:ℝ) < 1 / 4 * (2 / ((2048:ℕ):ℝ)) / g from
        div_pos (by push_cast; norm_num) hg_pos)
      (show (1:ℝ) / 4 * (2 / ((2048:ℕ):ℝ)) / g
          < 1 / 2 * (2 / ((2048:ℕ):ℝ)) / g from by
        apply (div_lt_div_right hg_pos).mpr
        push_cast
        norm_num)
    linarith
  have hm_floor : (-120:ℝ) < 20 * Real.logb 10 ((1:ℝ) / 2 * (2 / ((2048:ℕ):ℝ)) / g) := by
    have hge : (1:ℝ) / 2048 ≤ (1:ℝ) / 2 * (2 / ((2048:ℕ):ℝ)) / g := by
      rw [le_div_iff hg_pos]
      push_cast
      linarith
    have hlog := Real.logb_le_logb_of_le (show (1:ℝ) < 10 by norm_num)
      (show (0:ℝ) < 1 / 2048 by norm_num) hge
    have hfl : (-6:ℝ) < Real.logb 10 (1 / 2048) := by
      rw [Real.lt_logb_iff_rpow_lt (by norm_num) (by norm_num)]
      rw [show (-6:ℝ) = -((6:ℕ):ℝ) by norm_num, Real.rpow_neg (by norm_num),
        Real.rpow_natCast]
      norm_num
    linarith
  have hfinal : (20 * Real.logb 10 ((1:ℝ) / 4 * (2 / ((2048:ℕ):ℝ)) / g)) ⊔ (-120)
      < (20 * Real.logb 10 ((1:ℝ) / 2 * (2 / ((2048:ℕ):ℝ)) / g)) ⊔ (-120) := by
    apply lt_of_lt_of_le (max_lt hlt hm_floor) (le_max_left _ _)
  exact ne_of_lt hfinal


end NPSA
